import Mathlib

/-!
# Verification of the passbrief SR22T performance calculator

Shallow embedding of `src/passbrief/performance/calculator.py`
(class `PerformanceCalculator`) together with proofs of the specified
properties of its interpolation engine and the closed-form
atmospheric / wind calculators.

Modelling conventions:
* Python numbers (ints and floats) are modelled as rationals `ℚ`; the
  Python int/float type distinction is erased.  Machine floating point
  is modelled by exact rational arithmetic.
* Python strings are modelled by Lean `String`; the string operations
  used by the source (`in`, `replace`, `split`, `isdigit`, `int(...)`,
  `str.upper`) are re-implemented below, character by character, with
  Python's semantics.
* Python dicts are modelled as association lists (`List (String × _)`)
  in insertion order; lookups take the first matching key, matching
  dict semantics for duplicate-free key sets.
* Fallible Python code is modelled by `Except PyError`; `try/except`
  blocks become `match` on the `Except` value.
-/

/-- Python exception values that the modelled code can raise. -/
inductive PyError
  | valueError (msg : String)
  | keyError (key : String)
  | typeError (msg : String)
  | unboundLocal
  deriving DecidableEq, Repr

/-! ## Python string primitives -/

/-- Auxiliary for `pyContains`: `pat` occurs as a substring. -/
def pyContainsAux (pat : List Char) : List Char → Bool
  | [] => pat.isEmpty
  | c :: rest => pat.isPrefixOf (c :: rest) || pyContainsAux pat rest

/-- Python's substring test `pat in s`. -/
def pyContains (s pat : String) : Bool :=
  pyContainsAux pat.data s.data

/-- Auxiliary for `pyReplace`; the fuel argument (initialised to the
length of the string) makes the recursion structural. -/
def pyReplaceAux (pat rep : List Char) : Nat → List Char → List Char
  | _, [] => []
  | 0, s => s
  | fuel + 1, c :: rest =>
    if pat ≠ [] ∧ pat.isPrefixOf (c :: rest) then
      rep ++ pyReplaceAux pat rep fuel (List.drop (pat.length - 1) rest)
    else
      c :: pyReplaceAux pat rep fuel rest

/-- Python's `s.replace(pat, rep)`: replace every non-overlapping
occurrence, left to right (for nonempty `pat`, as used by the source). -/
def pyReplace (s pat rep : String) : String :=
  ⟨pyReplaceAux pat.data rep.data s.data.length s.data⟩

/-- Auxiliary for `pySplit` (fuel-structural). -/
def pySplitAux (sep : List Char) : Nat → List Char → List Char → List (List Char)
  | _, acc, [] => [acc.reverse]
  | 0, acc, s => [acc.reverse ++ s]
  | fuel + 1, acc, c :: rest =>
    if sep ≠ [] ∧ sep.isPrefixOf (c :: rest) then
      acc.reverse :: pySplitAux sep fuel [] (List.drop (sep.length - 1) rest)
    else
      pySplitAux sep fuel (c :: acc) rest

/-- Python's `s.split(sep)` for a nonempty separator. -/
def pySplit (s sep : String) : List String :=
  (pySplitAux sep.data s.data.length [] s.data).map (⟨·⟩)

/-- Python list indexing `l[i]` as used on split results; the source
only indexes positions guaranteed to exist by a preceding `in` test. -/
def pyIndex (l : List String) (i : Nat) : String :=
  l.getD i ""

/-- Digit-string parsing: `some` exactly when the characters form a
nonempty all-digit string, i.e. exactly when Python's `str.isdigit`
accepts it, in which case `int(...)` yields this value. -/
def digitsToNat? (l : List Char) : Option Nat :=
  if l.isEmpty || !l.all Char.isDigit then none
  else some (l.foldl (fun a c => 10 * a + (c.toNat - 48)) 0)

/-- Python's `int(s)` on the label fragments the source parses: an
optional leading minus sign followed by decimal digits. -/
def pyInt? (s : String) : Option Int :=
  match s.data with
  | '-' :: rest => (digitsToNat? rest).map (fun n => -(n : Int))
  | l => (digitsToNat? l).map (fun n => (n : Int))

/-- Python's `s.upper()` (ASCII, sufficient for the METAR tokens used). -/
def pyUpper (s : String) : String :=
  ⟨s.data.map Char.toUpper⟩

/-- `str(x)` for the numbers the source prints into dictionary keys:
integral rationals render as the integer literal (the temperature
columns are ints in the data). -/
def pyStr (q : ℚ) : String :=
  if q.den = 1 then toString q.num else toString q

/-! ## Python rounding

Python 3's builtin `round` uses round-half-to-even (banker's rounding);
`round(0.5) = 0`, `round(1.5) = 2`, `round(-0.5) = 0`. -/

/-- Python 3 `round(q)` on an exact rational.  (`Rat.floor` is the
computable floor; `pyRound_eq` below restates it via `⌊q⌋`.) -/
def pyRound (q : ℚ) : ℤ :=
  let n := Rat.floor q
  let frac := q - n
  if frac < 1 / 2 then n
  else if 1 / 2 < frac then n + 1
  else if n % 2 = 0 then n else n + 1

/-- Python 3 `round(q, 1)` (one decimal place). -/
def pyRound1 (q : ℚ) : ℚ :=
  (pyRound (q * 10) : ℚ) / 10

/-! ## Config constants (`src/passbrief/config.py`) -/

def Config.PRESSURE_ALTITUDE_ROUND : ℚ := 10
def Config.DENSITY_ALTITUDE_ROUND : ℚ := 50
def Config.PERFORMANCE_DISTANCE_ROUND : ℚ := 50

/-- The final per-field distance rounding step
`round(x / Config.PERFORMANCE_DISTANCE_ROUND) * Config.PERFORMANCE_DISTANCE_ROUND`
(calculator.py line 623). -/
def distanceRound (v : ℚ) : ℚ :=
  (pyRound (v / Config.PERFORMANCE_DISTANCE_ROUND) : ℚ) * Config.PERFORMANCE_DISTANCE_ROUND

/-! ## Closed-form atmospheric formulas -/

/-- `PerformanceCalculator.calculate_pressure_altitude`. -/
def calculate_pressure_altitude (field_elevation_ft altimeter_inhg : ℚ) : ℚ :=
  let pa := field_elevation_ft + (2992 / 100 - altimeter_inhg) * 1000
  (pyRound (pa / Config.PRESSURE_ALTITUDE_ROUND) : ℚ) * Config.PRESSURE_ALTITUDE_ROUND

/-- `PerformanceCalculator.calculate_isa_temp`:
`round(15 - 2 * (pressure_altitude_ft / 1000), 1)`. -/
def calculate_isa_temp (pressure_altitude_ft : ℚ) : ℚ :=
  pyRound1 (15 - 2 * (pressure_altitude_ft / 1000))

/-- `PerformanceCalculator.calculate_density_altitude`. -/
def calculate_density_altitude (pressure_altitude_ft oat_c : ℚ) : ℚ :=
  let isa_temp := calculate_isa_temp pressure_altitude_ft
  let density_altitude := pressure_altitude_ft + 120 * (oat_c - isa_temp)
  (pyRound (density_altitude / Config.DENSITY_ALTITUDE_ROUND) : ℚ) * Config.DENSITY_ALTITUDE_ROUND

/-! ## Table data model

A distance-table condition row (`conditions` entries of the
`takeoff_distance` / `landing_distance` tables): a pressure altitude
plus a `performance` dict from temperature label to a cell dict with
the numeric fields `ground_roll_ft` and `total_distance_ft`. -/

/-- One cell of a distance table: a dict of named numeric fields. -/
abbrev DistCell := List (String × ℚ)

/-- The `performance` dict of one distance condition row. -/
abbrev DistPerf := List (String × DistCell)

/-- One `conditions` entry of a distance table. -/
structure DistCondition where
  pressure_altitude_ft : ℚ
  performance : DistPerf
  deriving DecidableEq

/-- One `conditions` entry of a climb-gradient table: the `performance`
dict maps labels like `"temp_0c_ft_per_nm"` to bare scalars. -/
structure GradCondition where
  pressure_altitude_ft : ℚ
  performance : List (String × ℚ)
  deriving DecidableEq

/-! ## Bracketing (the `for i in range(len(xs) - 1)` scan loops) -/

/-- The altitude / temperature bracketing loop of the source: scan
adjacent pairs of the sorted list, returning the first pair `(a, b)`
with `a ≤ x ≤ b`; if no pair matches (in particular for lists with
fewer than two elements) both brackets stay initialised to `x`. -/
def findBracket (x : ℚ) : List ℚ → ℚ × ℚ
  | a :: b :: rest => if a ≤ x ∧ x ≤ b then (a, b) else findBracket x (b :: rest)
  | _ => (x, x)

/-- The gradient bracketing loop, which scans `(temp, value)` pairs and
distinguishes "no break" (Python's `for … else`) via `none`. -/
def gradFindBracket (x : ℚ) : List (ℚ × ℚ) → Option ((ℚ × ℚ) × (ℚ × ℚ))
  | p :: q :: rest =>
    if p.1 ≤ x ∧ x ≤ q.1 then some (p, q) else gradFindBracket x (q :: rest)
  | _ => none

/-- Python `sorted` ascending on numbers. -/
def pySortQ (l : List ℚ) : List ℚ :=
  List.insertionSort (· ≤ ·) l

/-- Python `sorted` ascending on integers. -/
def pySortZ (l : List ℤ) : List ℤ :=
  List.insertionSort (· ≤ ·) l

/-- Lexicographic order on `(temp, value)` pairs: Python's tuple
comparison used by `temp_points.sort()`. -/
def pairLe (p q : ℚ × ℚ) : Prop :=
  p.1 < q.1 ∨ (p.1 = q.1 ∧ p.2 ≤ q.2)

instance : DecidableRel pairLe := fun p q =>
  inferInstanceAs (Decidable (p.1 < q.1 ∨ (p.1 = q.1 ∧ p.2 ≤ q.2)))

instance : IsTotal (ℚ × ℚ) pairLe where
  total p q := by
    rcases lt_trichotomy p.1 q.1 with h | h | h
    · exact Or.inl (Or.inl h)
    · rcases le_total p.2 q.2 with h2 | h2
      · exact Or.inl (Or.inr ⟨h, h2⟩)
      · exact Or.inr (Or.inr ⟨h.symm, h2⟩)
    · exact Or.inr (Or.inl h)

instance : IsTrans (ℚ × ℚ) pairLe where
  trans p q r hpq hqr := by
    rcases hpq with h | ⟨he, h2⟩
    · rcases hqr with h' | ⟨he', _⟩
      · exact Or.inl (h.trans h')
      · exact Or.inl (he' ▸ h)
    · rcases hqr with h' | ⟨he', h2'⟩
      · exact Or.inl (he ▸ h')
      · exact Or.inr ⟨he.trans he', h2.trans h2'⟩

/-- Python `temp_points.sort()` on `(temp, value)` tuples. -/
def pySortPairs (l : List (ℚ × ℚ)) : List (ℚ × ℚ) :=
  List.insertionSort pairLe l

/-! ## Temperature-label parsing -/

/-- The label-parsing chain of `_interpolate_temperature`
(calculator.py line 632):
`key.replace('temp_', '').replace('c', '').replace('minus', '-')`
followed by `int(...)`. -/
def distTempOfKey (key : String) : Option ℤ :=
  pyInt? (pyReplace (pyReplace (pyReplace key "temp_" "") "c" "") "minus" "-")

/-- The `temps` list built by `_interpolate_temperature` lines 629-634:
every key containing `'temp_'` is parsed; an unparsable label raises
`ValueError` (from `int(...)`). -/
def collectDistTemps : DistPerf → Except PyError (List ℤ)
  | [] => .ok []
  | (key, _) :: rest =>
    if pyContains key "temp_" then
      match distTempOfKey key with
      | some t => (collectDistTemps rest).map (t :: ·)
      | none => .error (.valueError "invalid literal for int() with base 10")
    else
      collectDistTemps rest

/-- Key reconstruction of `_interpolate_temperature` lines 646-647:
`"temp_" + str(t) + "c" if t >= 0 else "temp_minus" + str(abs(t)) + "c"`. -/
def tempKeyFor (t : ℚ) : String :=
  if 0 ≤ t then "temp_" ++ pyStr t ++ "c" else "temp_minus" ++ pyStr |t| ++ "c"

/-- The `temp_points` list built by `_interpolate_gradient_temperature`
lines 556-570: labels containing both `'temp_'` and `'ft_per_nm'` are
parsed; `'minus'` labels parse their digits (raising `ValueError` when
unparsable), `'isa'` labels are anchored at the constant `15`, and any
other label whose digit part fails `isdigit` is silently skipped. -/
def gradTempPoints : List (String × ℚ) → Except PyError (List (ℚ × ℚ))
  | [] => .ok []
  | (key, value) :: rest =>
    if pyContains key "temp_" && pyContains key "ft_per_nm" then
      if pyContains key "minus" then
        match pyInt? (pyIndex (pySplit (pyIndex (pySplit key "minus") 1) "c") 0) with
        | some n => (gradTempPoints rest).map ((((-n : ℤ) : ℚ), value) :: ·)
        | none => .error (.valueError "invalid literal for int() with base 10")
      else if pyContains key "isa" then
        (gradTempPoints rest).map (((15 : ℚ), value) :: ·)
      else
        match digitsToNat? (pyIndex (pySplit (pyIndex (pySplit key "temp_") 1) "c") 0).data with
        | some n => (gradTempPoints rest).map ((((n : ℕ) : ℚ), value) :: ·)
        | none => gradTempPoints rest
    else
      gradTempPoints rest

/-! ## The interpolators -/

/-- `PerformanceCalculator._interpolate_temperature` (lines 627-656):
temperature interpolation of one metric within one distance-table row. -/
def interpolate_temperature (temperature : ℚ) (temp_data : DistPerf) (metric : String) :
    Except PyError ℚ := do
  let temps0 ← collectDistTemps temp_data
  let temps := pySortZ temps0
  match temps.min?, temps.max? with
  | some mn, some mx =>
    if temperature < (mn : ℚ) ∨ (mx : ℚ) < temperature then
      .error (.valueError "Temperature outside data range")
    else
      let tb := findBracket temperature (temps.map (Int.cast))
      let temp_low_key := tempKeyFor tb.1
      let temp_high_key := tempKeyFor tb.2
      match List.lookup temp_low_key temp_data with
      | none => .error (.keyError temp_low_key)
      | some cLo =>
        match List.lookup metric cLo with
        | none => .error (.keyError metric)
        | some low_val =>
          match List.lookup temp_high_key temp_data with
          | none => .error (.keyError temp_high_key)
          | some cHi =>
            match List.lookup metric cHi with
            | none => .error (.keyError metric)
            | some high_val =>
              if tb.1 = tb.2 then .ok low_val
              else .ok (low_val + (temperature - tb.1) / (tb.2 - tb.1) * (high_val - low_val))
  | _, _ => .error (.valueError "min() arg is an empty sequence")

/-- `PerformanceCalculator.interpolate_performance` (lines 593-625),
taking the `conditions` list of the selected distance table.  Returns
the result dict mapping each metric to its value rounded to the nearest
50 ft. -/
def interpolate_performance (perf_data : List DistCondition)
    (pressure_altitude temperature : ℚ) : Except PyError (List (String × ℚ)) := do
  let altitudes := pySortQ (perf_data.map (·.pressure_altitude_ft))
  match altitudes.min?, altitudes.max? with
  | some mn, some mx =>
    if pressure_altitude < mn ∨ mx < pressure_altitude then
      .error (.valueError "Pressure altitude outside data range")
    else
      let pab := findBracket pressure_altitude altitudes
      match perf_data.find? (fun c => decide (c.pressure_altitude_ft = pab.1)) with
      | none => .error (.valueError "StopIteration")
      | some low_data =>
        match perf_data.find? (fun c => decide (c.pressure_altitude_ft = pab.2)) with
        | none => .error (.valueError "StopIteration")
        | some high_data => do
          let grLo ← interpolate_temperature temperature low_data.performance "ground_roll_ft"
          let grHi ← interpolate_temperature temperature high_data.performance "ground_roll_ft"
          let gr := if pab.1 = pab.2 then grLo
            else grLo + (pressure_altitude - pab.1) / (pab.2 - pab.1) * (grHi - grLo)
          let tdLo ← interpolate_temperature temperature low_data.performance "total_distance_ft"
          let tdHi ← interpolate_temperature temperature high_data.performance "total_distance_ft"
          let td := if pab.1 = pab.2 then tdLo
            else tdLo + (pressure_altitude - pab.1) / (pab.2 - pab.1) * (tdHi - tdLo)
          .ok [("ground_roll_ft", distanceRound gr), ("total_distance_ft", distanceRound td)]
  | _, _ => .error (.valueError "min() arg is an empty sequence")

/-- `interpolate_performance` with the final per-field rounding line
removed, used to state that rounding is applied exactly once, at the
end, per field. -/
def interpolate_performance_raw (perf_data : List DistCondition)
    (pressure_altitude temperature : ℚ) : Except PyError (List (String × ℚ)) := do
  let altitudes := pySortQ (perf_data.map (·.pressure_altitude_ft))
  match altitudes.min?, altitudes.max? with
  | some mn, some mx =>
    if pressure_altitude < mn ∨ mx < pressure_altitude then
      .error (.valueError "Pressure altitude outside data range")
    else
      let pab := findBracket pressure_altitude altitudes
      match perf_data.find? (fun c => decide (c.pressure_altitude_ft = pab.1)) with
      | none => .error (.valueError "StopIteration")
      | some low_data =>
        match perf_data.find? (fun c => decide (c.pressure_altitude_ft = pab.2)) with
        | none => .error (.valueError "StopIteration")
        | some high_data => do
          let grLo ← interpolate_temperature temperature low_data.performance "ground_roll_ft"
          let grHi ← interpolate_temperature temperature high_data.performance "ground_roll_ft"
          let gr := if pab.1 = pab.2 then grLo
            else grLo + (pressure_altitude - pab.1) / (pab.2 - pab.1) * (grHi - grLo)
          let tdLo ← interpolate_temperature temperature low_data.performance "total_distance_ft"
          let tdHi ← interpolate_temperature temperature high_data.performance "total_distance_ft"
          let td := if pab.1 = pab.2 then tdLo
            else tdLo + (pressure_altitude - pab.1) / (pab.2 - pab.1) * (tdHi - tdLo)
          .ok [("ground_roll_ft", gr), ("total_distance_ft", td)]
  | _, _ => .error (.valueError "min() arg is an empty sequence")

/-- `PerformanceCalculator._interpolate_gradient_temperature`
(lines 554-591): temperature interpolation within one climb-gradient
row.  The `for … else` of the source (exact-match fallback when the
scan loop never breaks, `UnboundLocalError` otherwise) is modelled by
the `none` branch of `gradFindBracket`. -/
def interpolate_gradient_temperature (temperature : ℚ)
    (gradient_data : List (String × ℚ)) : Except PyError ℚ := do
  let pts0 ← gradTempPoints gradient_data
  let temp_points := pySortPairs pts0
  let temps := temp_points.map (·.1)
  match temps.min?, temps.max? with
  | some mn, some mx =>
    if temperature < mn ∨ mx < temperature then
      .error (.valueError "Temperature outside range")
    else
      match gradFindBracket temperature temp_points with
      | some ((t1, v1), (t2, v2)) =>
        if t1 = t2 then .ok v1
        else .ok (v1 + (temperature - t1) / (t2 - t1) * (v2 - v1))
      | none =>
        match temp_points.find? (fun p => decide (p.1 = temperature)) with
        | some p => .ok p.2
        | none => .error .unboundLocal
  | _, _ => .error (.valueError "min() arg is an empty sequence")

/-- `PerformanceCalculator._interpolate_climb_gradient` (lines 505-552),
taking the `conditions` list of the selected gradient table. -/
def interpolate_climb_gradient (gradient_data : List GradCondition)
    (pressure_altitude temperature : ℚ) : Except PyError ℚ := do
  let altitudes := pySortQ (gradient_data.map (·.pressure_altitude_ft))
  match altitudes.min?, altitudes.max? with
  | some mn, some mx =>
    if pressure_altitude < mn ∨ mx < pressure_altitude then
      .error (.valueError "PA outside range")
    else
      let pab := findBracket pressure_altitude altitudes
      match gradient_data.find? (fun c => decide (c.pressure_altitude_ft = pab.1)) with
      | none => .error (.valueError "StopIteration")
      | some low_data =>
        match gradient_data.find? (fun c => decide (c.pressure_altitude_ft = pab.2)) with
        | none => .error (.valueError "StopIteration")
        | some high_data => do
          let low_gradient ← interpolate_gradient_temperature temperature low_data.performance
          let high_gradient ← interpolate_gradient_temperature temperature high_data.performance
          if pab.1 = pab.2 then .ok low_gradient
          else .ok (low_gradient +
            (pressure_altitude - pab.1) / (pab.2 - pab.1) * (high_gradient - low_gradient))
  | _, _ => .error (.valueError "min() arg is an empty sequence")

/-! ## Wind components (`calculate_wind_components`, lines 205-292) -/

/-- A Python value passed into `calculate_wind_components`: the callers
hand over ints, strings (from Garmin briefings / METAR `VRB`), or
`None`. -/
inductive PyVal
  | int (n : ℤ)
  | str (s : String)
  | noneV
  deriving DecidableEq

/-- Python's `int(x)` on a `PyVal`: ints pass through, strings are
parsed (`ValueError` on failure), `None` raises `TypeError`. -/
def pyToInt : PyVal → Except PyError ℤ
  | .int n => .ok n
  | .str s =>
    match pyInt? s with
    | some n => .ok n
    | none => .error (.valueError "invalid literal for int() with base 10")
  | .noneV => .error (.typeError "int() argument must be a string or a number")

/-- First normalisation loop: `while angle_diff > 180: angle_diff -= 360`. -/
def normLoop1 (d : ℤ) : ℤ :=
  if 180 < d then normLoop1 (d - 360) else d
termination_by (d - 180).toNat
decreasing_by
  omega

/-- Second normalisation loop: `while angle_diff < -180: angle_diff += 360`. -/
def normLoop2 (d : ℤ) : ℤ :=
  if d < -180 then normLoop2 (d + 360) else d
termination_by (-180 - d).toNat
decreasing_by
  omega

/-- The two normalisation loops in sequence (lines 256-260). -/
def normAngle (d : ℤ) : ℤ :=
  normLoop2 (normLoop1 d)

/-- Python 3 `round` on a real number (the wind components are floats;
their rounding is the same round-half-to-even rule). -/
noncomputable def pyRoundR (x : ℝ) : ℤ :=
  let n := ⌊x⌋
  let frac := x - n
  if frac < 1 / 2 then n
  else if 1 / 2 < frac then n + 1
  else if n % 2 = 0 then n else n + 1

/-- The dict returned by `calculate_wind_components`. -/
structure WindComponents where
  headwind : ℤ
  crosswind : ℤ
  crosswind_direction : String
  is_tailwind : Bool
  crosswind_exceeds_limits : Bool
  deriving DecidableEq

/-- The zero-wind fallback dict (lines 246-252). -/
def zeroWind : WindComponents :=
  { headwind := 0, crosswind := 0, crosswind_direction := "none",
    is_tailwind := false, crosswind_exceeds_limits := false }

open Real in
/-- `PerformanceCalculator.calculate_wind_components` (lines 205-292).
The `try` block covers the `VRB` check and the three `int(...)`
conversions; any `ValueError`/`TypeError` there yields the zero-wind
dict.  The subtraction `wind_dir - runway_heading` happens after the
`try`, so a non-int `wind_dir` surviving the `VRB` branch (a string
runway heading) raises an uncaught `TypeError`, which the outer
`Except` records. -/
noncomputable def calculate_wind_components (runway_heading wind_dir wind_speed : PyVal) :
    Except PyError WindComponents :=
  let wd0 : Except PyError PyVal :=
    match wind_dir with
    | .str s =>
      if pyUpper s = "VRB" then .ok runway_heading
      else (pyToInt wind_dir).map .int
    | v => (pyToInt v).map .int
  let conv : Except PyError (PyVal × ℤ × ℤ) := do
    let wd ← wd0
    let ws ← pyToInt wind_speed
    let rh ← pyToInt runway_heading
    pure (wd, ws, rh)
  match conv with
  | .error _ => .ok zeroWind
  | .ok (.int wdi, ws, rh) =>
    let angle_diff := normAngle (wdi - rh)
    let angle_rad : ℝ := (angle_diff : ℝ) * Real.pi / 180
    let headwind : ℝ := (ws : ℝ) * Real.cos angle_rad
    let crosswind : ℝ := (ws : ℝ) * Real.sin angle_rad
    let abs_crosswind := |crosswind|
    .ok { headwind := pyRoundR headwind,
          crosswind := pyRoundR abs_crosswind,
          crosswind_direction := if 0 < crosswind then "right" else "left",
          is_tailwind := decide (headwind < 0),
          crosswind_exceeds_limits := decide (21 < abs_crosswind) }
  | .ok (_, _, _) => .error (.typeError "unsupported operand type(s) for -")

/-- The dict returned by `calculate_climb_gradients`. -/
structure ClimbGradients where
  tas_91 : ℚ
  gs_91 : ℚ
  gradient_91 : Option ℚ
  tas_120 : ℚ
  gs_120 : ℚ
  gradient_120 : Option ℚ
  climb_rate_91kias : Option ℚ
  deriving DecidableEq

/-- `PerformanceCalculator.calculate_climb_gradients` (lines 380-461),
taking the two gradient-table `conditions` lists.  The `try/except`
around each gradient interpolation maps failure to `None`
(`Except.toOption`); TAS and ground speed are always computed. -/
def calculate_climb_gradients (g91 g120 : List GradCondition)
    (pressure_altitude_ft temperature_c density_altitude_ft headwind_kt : ℚ) :
    ClimbGradients :=
  let da_thousands := density_altitude_ft / 1000
  let tas_91 := 91 * (1 + 2 / 100 * da_thousands)
  let tas_120 := 120 * (1 + 2 / 100 * da_thousands)
  let gs_91 := tas_91 - headwind_kt
  let gs_120 := tas_120 - headwind_kt
  let gradient_91 := (interpolate_climb_gradient g91 pressure_altitude_ft temperature_c).toOption
  let gradient_120 := (interpolate_climb_gradient g120 pressure_altitude_ft temperature_c).toOption
  { tas_91 := pyRound1 tas_91, gs_91 := pyRound1 gs_91, gradient_91 := gradient_91,
    tas_120 := pyRound1 tas_120, gs_120 := pyRound1 gs_120, gradient_120 := gradient_120,
    climb_rate_91kias := gradient_91 }

/-! ## Spec-side descriptions of the table shape

The following definitions describe, in terms of the parsing functions
above, which tables are well formed (canonical temperature labels, all
fields present — the shape of the embedded POH data) and when a query
is out of range.  They are used to state the error-contract claims. -/

/-- The canonical temperature label for an integer temperature, the
exact string the source reconstructs in lines 646-647. -/
def mkTempKey (t : ℤ) : String :=
  if 0 ≤ t then "temp_" ++ toString t ++ "c" else "temp_minus" ++ toString (-t) ++ "c"

/-- The parsed temperatures of a distance row, in key order (the value
`collectDistTemps` returns when no label is unparsable). -/
def rowTemps (d : DistPerf) : List ℤ :=
  d.filterMap (fun p => if pyContains p.1 "temp_" then distTempOfKey p.1 else none)

/-- One well-formed distance-row entry: if the key is a temperature
label it parses, it is in canonical form, and its cell carries both
distance fields. -/
def WFDistEntryB (p : String × DistCell) : Bool :=
  !pyContains p.1 "temp_" ||
    (match distTempOfKey p.1 with
     | some t =>
       decide (p.1 = mkTempKey t) && (List.lookup "ground_roll_ft" p.2).isSome &&
         (List.lookup "total_distance_ft" p.2).isSome
     | none => false)

/-- A well-formed distance row: at least one temperature label, every
temperature label well formed, and the parsed temperatures distinct. -/
def WFDistRowB (d : DistPerf) : Bool :=
  d.any (fun p => pyContains p.1 "temp_") && d.all WFDistEntryB &&
    decide (rowTemps d).Nodup

/-- A well-formed distance table: nonempty, distinct pressure
altitudes, all rows well formed (§3 of the specification). -/
def WFDistB (conds : List DistCondition) : Bool :=
  !conds.isEmpty && decide (conds.map (·.pressure_altitude_ft)).Nodup &&
    conds.all (fun c => WFDistRowB c.performance)

/-- The `(temp, value)` point a gradient-row entry contributes (`none`
for skipped or non-temperature keys). -/
def gradEntryPoint (p : String × ℚ) : Option (ℚ × ℚ) :=
  if pyContains p.1 "temp_" && pyContains p.1 "ft_per_nm" then
    if pyContains p.1 "minus" then
      match pyInt? (pyIndex (pySplit (pyIndex (pySplit p.1 "minus") 1) "c") 0) with
      | some n => some ((((-n : ℤ) : ℚ)), p.2)
      | none => none
    else if pyContains p.1 "isa" then some ((15 : ℚ), p.2)
    else
      match digitsToNat? (pyIndex (pySplit (pyIndex (pySplit p.1 "temp_") 1) "c") 0).data with
      | some n => some (((n : ℕ) : ℚ), p.2)
      | none => none
  else none

/-- The points of a gradient row (the value `gradTempPoints` returns
when no `minus` label is unparsable). -/
def rowGradPoints (d : List (String × ℚ)) : List (ℚ × ℚ) :=
  d.filterMap gradEntryPoint

/-- One well-formed gradient-row entry: a `minus` temperature label
must parse (anything else either parses, is the `isa` anchor, or is
skipped by the source). -/
def WFGradEntryB (p : String × ℚ) : Bool :=
  !(pyContains p.1 "temp_" && pyContains p.1 "ft_per_nm" && pyContains p.1 "minus") ||
    (pyInt? (pyIndex (pySplit (pyIndex (pySplit p.1 "minus") 1) "c") 0)).isSome

/-- A well-formed gradient row: all entries well formed and at least
one usable temperature point. -/
def WFGradRowB (d : List (String × ℚ)) : Bool :=
  d.all WFGradEntryB && !(rowGradPoints d).isEmpty

/-- A well-formed gradient table. -/
def WFGradB (conds : List GradCondition) : Bool :=
  !conds.isEmpty && decide (conds.map (·.pressure_altitude_ft)).Nodup &&
    conds.all (fun c => WFGradRowB c.performance)

/-- The query pressure altitude lies strictly outside the closed
interval `[min(altitudes), max(altitudes)]` (the condition of the
source's range check). -/
def altOutsideB (alts : List ℚ) (pa : ℚ) : Bool :=
  match (pySortQ alts).min?, (pySortQ alts).max? with
  | some mn, some mx => decide (pa < mn ∨ mx < pa)
  | _, _ => false

/-- The query temperature lies strictly outside the temperatures
available in a distance row. -/
def tempOutsideB (T : ℚ) (d : DistPerf) : Bool :=
  match (pySortZ (rowTemps d)).min?, (pySortZ (rowTemps d)).max? with
  | some mn, some mx => decide (T < (mn : ℚ) ∨ (mx : ℚ) < T)
  | _, _ => false

/-- The query temperature lies strictly outside the temperature points
available in a gradient row (after the source's skipping). -/
def gradTempOutsideB (T : ℚ) (d : List (String × ℚ)) : Bool :=
  match ((pySortPairs (rowGradPoints d)).map (·.1)).min?,
        ((pySortPairs (rowGradPoints d)).map (·.1)).max? with
  | some mn, some mx => decide (T < mn ∨ mx < T)
  | _, _ => false

/-- The two bracketing condition rows the distance interpolator
selects for a query pressure altitude. -/
def distBracketRows (perf_data : List DistCondition) (pa : ℚ) :
    Option (DistCondition × DistCondition) :=
  let altitudes := pySortQ (perf_data.map (·.pressure_altitude_ft))
  let pab := findBracket pa altitudes
  match perf_data.find? (fun c => decide (c.pressure_altitude_ft = pab.1)),
        perf_data.find? (fun c => decide (c.pressure_altitude_ft = pab.2)) with
  | some lo, some hi => some (lo, hi)
  | _, _ => none

/-- The two bracketing condition rows of the gradient interpolator. -/
def gradBracketRows (grad_data : List GradCondition) (pa : ℚ) :
    Option (GradCondition × GradCondition) :=
  let altitudes := pySortQ (grad_data.map (·.pressure_altitude_ft))
  let pab := findBracket pa altitudes
  match grad_data.find? (fun c => decide (c.pressure_altitude_ft = pab.1)),
        grad_data.find? (fun c => decide (c.pressure_altitude_ft = pab.2)) with
  | some lo, some hi => some (lo, hi)
  | _, _ => none

/-- The temperature of the query is out of range at one of the two
bracketing distance rows. -/
def distBracketTempOutside (perf_data : List DistCondition) (pa T : ℚ) : Prop :=
  ∃ lo hi, distBracketRows perf_data pa = some (lo, hi) ∧
    (tempOutsideB T lo.performance = true ∨ tempOutsideB T hi.performance = true)

/-- The temperature of the query is out of range at one of the two
bracketing gradient rows. -/
def gradBracketTempOutside (grad_data : List GradCondition) (pa T : ℚ) : Prop :=
  ∃ lo hi, gradBracketRows grad_data pa = some (lo, hi) ∧
    (gradTempOutsideB T lo.performance = true ∨ gradTempOutsideB T hi.performance = true)

/-! ## Helper lemmas: rounding, sorting, bracketing, lookup -/

/-- `pyRound` restated through the mathematical floor. -/
theorem pyRound_eq (q : ℚ) :
    pyRound q =
      (if q - ⌊q⌋ < 1 / 2 then ⌊q⌋
       else if 1 / 2 < q - ⌊q⌋ then ⌊q⌋ + 1
       else if ⌊q⌋ % 2 = 0 then ⌊q⌋ else ⌊q⌋ + 1) := by
  have h : Rat.floor q = ⌊q⌋ := by rw [Rat.floor_def', Rat.floor_def]
  simp only [pyRound, h]

/-- `pyRound` of an integer is that integer. -/
theorem pyRound_intCast (n : ℤ) : pyRound ((n : ℤ) : ℚ) = n := by
  rw [pyRound_eq]
  have h : ⌊((n : ℤ) : ℚ)⌋ = n := Int.floor_intCast n
  rw [h]
  norm_num

/-- Sorting rationals yields a `≤`-chain. -/
theorem chain'_pySortQ (l : List ℚ) : (pySortQ l).Chain' (· ≤ ·) := by
  rw [List.chain'_iff_pairwise]
  exact List.sorted_insertionSort (· ≤ ·) l

/-- Sorting integers yields a `≤`-chain. -/
theorem chain'_pySortZ (l : List ℤ) : (pySortZ l).Chain' (· ≤ ·) := by
  rw [List.chain'_iff_pairwise]
  exact List.sorted_insertionSort (· ≤ ·) l

theorem pySortQ_perm (l : List ℚ) : List.Perm (pySortQ l) l :=
  List.perm_insertionSort (· ≤ ·) l

theorem pySortZ_perm (l : List ℤ) : List.Perm (pySortZ l) l :=
  List.perm_insertionSort (· ≤ ·) l

theorem pySortPairs_perm (l : List (ℚ × ℚ)) : List.Perm (pySortPairs l) l :=
  List.perm_insertionSort pairLe l

instance : IsTrans (ℚ × ℚ) (fun p q => p.1 ≤ q.1) :=
  ⟨fun _ _ _ h1 h2 => le_trans h1 h2⟩

/-- Sorting the `(temp, value)` pairs sorts the temperatures. -/
theorem chain'_fst_pySortPairs (l : List (ℚ × ℚ)) :
    (pySortPairs l).Chain' (fun p q => p.1 ≤ q.1) := by
  rw [List.chain'_iff_pairwise]
  have h := List.sorted_insertionSort pairLe l
  exact h.imp (fun hpq => by
    rcases hpq with h1 | ⟨h1, _⟩
    · exact le_of_lt h1
    · exact le_of_eq h1)

/-- In a `≤`-chain the head is a lower bound. -/
theorem chain'_head_le {α : Type} [Preorder α] {a : α} {rest : List α}
    (hc : (a :: rest).Chain' (· ≤ ·)) {x : α} (hx : x ∈ a :: rest) : a ≤ x := by
  rcases List.mem_cons.mp hx with h | h
  · exact h ▸ le_refl a
  · have hp := List.chain'_iff_pairwise.mp hc
    exact List.rel_of_pairwise_cons hp h

/-- In a `≤`-chain every element is below the last. -/
theorem chain'_le_getLast {α : Type} [Preorder α] :
    ∀ (l : List α), l.Chain' (· ≤ ·) → ∀ x ∈ l, ∀ b, l.getLast? = some b → x ≤ b
  | [], _, x, hx, _, _ => absurd hx (List.not_mem_nil x)
  | [a], _, x, hx, b, hb => by
    simp only [List.mem_singleton] at hx
    simp only [List.getLast?_singleton, Option.some.injEq] at hb
    exact hx ▸ hb ▸ le_refl _
  | a :: c :: rest, hc, x, hx, b, hb => by
    have htail : (c :: rest).Chain' (· ≤ ·) := hc.tail
    have hlast : (c :: rest).getLast? = some b := by
      rwa [List.getLast?_cons_cons] at hb
    rcases List.mem_cons.mp hx with h | h
    · have hac : a ≤ c := List.chain'_cons.mp hc |>.1
      have := chain'_le_getLast (c :: rest) htail c (List.mem_cons_self c rest) b hlast
      exact h ▸ le_trans hac this
    · exact chain'_le_getLast (c :: rest) htail x h b hlast

/-- The bracketing loop on a sorted nonempty list whose range covers
`x` returns members of the list that bracket `x`. -/
theorem findBracket_covers (x : ℚ) :
    ∀ (l : List ℚ), l ≠ [] → l.Chain' (· ≤ ·) →
      (∀ a, l.head? = some a → a ≤ x) → (∀ b, l.getLast? = some b → x ≤ b) →
      (findBracket x l).1 ∈ l ∧ (findBracket x l).2 ∈ l ∧
        (findBracket x l).1 ≤ x ∧ x ≤ (findBracket x l).2
  | [], hne, _, _, _ => absurd rfl hne
  | [a], _, _, ha, hb => by
    have h1 : a ≤ x := ha a rfl
    have h2 : x ≤ a := hb a rfl
    have hxa : x = a := le_antisymm h2 h1
    simp [findBracket, hxa]
  | a :: b :: rest, _, hc, ha, hb => by
    by_cases h : a ≤ x ∧ x ≤ b
    · simp only [findBracket, if_pos h]
      exact ⟨List.mem_cons_self _ _, List.mem_cons_of_mem _ (List.mem_cons_self _ _), h.1, h.2⟩
    · have hax : a ≤ x := ha a rfl
      have hbx : b ≤ x := by
        by_contra hbx
        exact h ⟨hax, le_of_not_le hbx⟩
      have ih := findBracket_covers x (b :: rest) (List.cons_ne_nil b rest) hc.tail
        (fun a' ha' => by
          simp only [List.head?_cons, Option.some.injEq] at ha'
          exact ha' ▸ hbx)
        (fun b' hb' => hb b' (by rwa [List.getLast?_cons_cons]))
      simp only [findBracket, if_neg h]
      exact ⟨List.mem_cons_of_mem _ ih.1, List.mem_cons_of_mem _ ih.2.1, ih.2.2⟩

/-- On a strictly sorted list containing `x`, the bracketing loop pins
`x` to one of its two endpoints. -/
theorem findBracket_exact (x : ℚ) :
    ∀ (l : List ℚ), l.Chain' (· < ·) → x ∈ l →
      (∀ a, l.head? = some a → a ≤ x) →
      (findBracket x l).1 = x ∨ (findBracket x l).2 = x
  | [], _, hx, _ => absurd hx (List.not_mem_nil x)
  | [a], _, hx, _ => by
    simp [findBracket]
  | a :: b :: rest, hc, hx, ha => by
    by_cases h : a ≤ x ∧ x ≤ b
    · simp only [findBracket, if_pos h]
      rcases List.mem_cons.mp hx with rfl | hx'
      · exact Or.inl rfl
      · rcases List.mem_cons.mp hx' with rfl | hx''
        · exact Or.inr rfl
        · have hp := List.chain'_iff_pairwise.mp hc.tail
          have hbx : b < x := List.rel_of_pairwise_cons hp hx''
          exact absurd h.2 (not_le.mpr hbx)
    · have hax : a ≤ x := ha a rfl
      have hab : a < b := (List.chain'_cons.mp hc).1
      have hxa : x ≠ a := by
        rintro rfl
        exact h ⟨le_refl x, le_of_lt hab⟩
      have hx' : x ∈ b :: rest := by
        rcases List.mem_cons.mp hx with rfl | hx2
        · exact absurd rfl hxa
        · exact hx2
      have hbx : b ≤ x := by
        by_contra hbx
        exact h ⟨hax, le_of_not_le hbx⟩
      have ih := findBracket_exact x (b :: rest) hc.tail hx'
        (fun a' ha' => by
          simp only [List.head?_cons, Option.some.injEq] at ha'
          exact ha' ▸ hbx)
      simpa only [findBracket, if_neg h] using ih

/-- The gradient bracketing loop on a sorted nonempty point list whose
temperature range covers `x`: either an adjacent bracketing pair is
found, or (only possible for a one-point list) `x` is hit exactly. -/
theorem gradFindBracket_covers (x : ℚ) :
    ∀ (l : List (ℚ × ℚ)), l ≠ [] → l.Chain' (fun p q => p.1 ≤ q.1) →
      (∀ p, l.head? = some p → p.1 ≤ x) → (∀ p, l.getLast? = some p → x ≤ p.1) →
      (∃ p q, gradFindBracket x l = some (p, q) ∧ p ∈ l ∧ q ∈ l ∧ p.1 ≤ x ∧ x ≤ q.1) ∨
        (gradFindBracket x l = none ∧ ∃ p ∈ l, p.1 = x)
  | [], hne, _, _, _ => absurd rfl hne
  | [p], _, _, ha, hb => by
    have h1 : p.1 ≤ x := ha p rfl
    have h2 : x ≤ p.1 := hb p rfl
    exact Or.inr ⟨rfl, p, List.mem_singleton_self p, le_antisymm h1 h2⟩
  | p :: q :: rest, _, hc, ha, hb => by
    by_cases h : p.1 ≤ x ∧ x ≤ q.1
    · exact Or.inl ⟨p, q, by simp [gradFindBracket, h], List.mem_cons_self _ _,
        List.mem_cons_of_mem _ (List.mem_cons_self _ _), h.1, h.2⟩
    · have hpx : p.1 ≤ x := ha p rfl
      have hqx : q.1 ≤ x := by
        by_contra hqx
        exact h ⟨hpx, le_of_not_le hqx⟩
      have ih := gradFindBracket_covers x (q :: rest) (List.cons_ne_nil q rest) hc.tail
        (fun p' hp' => by
          simp only [List.head?_cons, Option.some.injEq] at hp'
          exact hp' ▸ hqx)
        (fun p' hp' => hb p' (by rwa [List.getLast?_cons_cons]))
      rcases ih with ⟨p', q', heq, hm1, hm2, hle1, hle2⟩ | ⟨heq, p', hm, hpe⟩
      · exact Or.inl ⟨p', q', by simp [gradFindBracket, h, heq],
          List.mem_cons_of_mem _ hm1, List.mem_cons_of_mem _ hm2, hle1, hle2⟩
      · exact Or.inr ⟨by simp [gradFindBracket, h, heq], p',
          List.mem_cons_of_mem _ hm, hpe⟩

/-- A key present in an association list is found by `lookup`. -/
theorem lookup_isSome_of_mem {β : Type} {k : String} {v : β} :
    ∀ {d : List (String × β)}, (k, v) ∈ d → ∃ c, List.lookup k d = some c
  | [], h => absurd h (List.not_mem_nil _)
  | (k', v') :: rest, h => by
    by_cases hk : k = k'
    · exact ⟨v', by simp [List.lookup, hk]⟩
    · have hbeq : (k == k') = false := beq_eq_false_iff_ne.mpr hk
      rcases List.mem_cons.mp h with heq | hmem
      · cases heq
        exact absurd rfl hk
      · have := lookup_isSome_of_mem (d := rest) hmem
        simpa [List.lookup, hbeq] using this

/-- What `lookup` returns is an entry of the association list. -/
theorem mem_of_lookup_eq_some {β : Type} {k : String} {c : β} :
    ∀ {d : List (String × β)}, List.lookup k d = some c → (k, c) ∈ d
  | [], h => by simp [List.lookup] at h
  | (k', v') :: rest, h => by
    by_cases hk : k = k'
    · subst hk
      simp only [List.lookup, beq_self_eq_true, Option.some.injEq] at h
      exact h ▸ List.mem_cons_self _ _
    · have hbeq : (k == k') = false := beq_eq_false_iff_ne.mpr hk
      simp only [List.lookup, hbeq] at h
      exact List.mem_cons_of_mem _ (mem_of_lookup_eq_some h)

/-- A satisfying member makes `find?` succeed. -/
theorem find?_isSome_of_mem {α : Type} {p : α → Bool} :
    ∀ {l : List α}, (∃ x ∈ l, p x = true) → ∃ y, l.find? p = some y
  | [], ⟨_, hx, _⟩ => absurd hx (List.not_mem_nil _)
  | a :: rest, ⟨x, hx, hpx⟩ => by
    by_cases hpa : p a = true
    · exact ⟨a, by simp [List.find?, hpa]⟩
    · have hne : x ≠ a := fun h => hpa (h ▸ hpx)
      have hx' : x ∈ rest := by
        rcases List.mem_cons.mp hx with h | h
        · exact absurd h hne
        · exact h
      have := find?_isSome_of_mem (l := rest) ⟨x, hx', hpx⟩
      rcases this with ⟨y, hy⟩
      exact ⟨y, by simp [List.find?, hpa, hy]⟩

/-- `Except` bind on a success value. -/
theorem exceptBind_ok {ε α β : Type} (a : α) (f : α → Except ε β) :
    (Except.ok a : Except ε α) >>= f = f a := rfl

/-- `Except` bind on an error value. -/
theorem exceptBind_error {ε α β : Type} (e : ε) (f : α → Except ε β) :
    (Except.error e : Except ε α) >>= f = .error e := rfl

/-- On integral rationals the reconstructed key of lines 646-647 is the
canonical label. -/
theorem tempKeyFor_intCast (t : ℤ) : tempKeyFor ((t : ℤ) : ℚ) = mkTempKey t := by
  unfold tempKeyFor mkTempKey pyStr
  by_cases ht : 0 ≤ t
  · have h1 : (0 : ℚ) ≤ (t : ℚ) := by exact_mod_cast ht
    simp [ht, h1, Rat.den_intCast, Rat.num_intCast]
  · have h1 : ¬(0 : ℚ) ≤ (t : ℚ) := by exact_mod_cast ht
    have habs : |(t : ℚ)| = ((-t : ℤ) : ℚ) := by
      push_cast
      rw [abs_of_neg (by exact_mod_cast not_le.mp ht)]
    simp [ht, h1, habs, Rat.den_intCast, Rat.num_intCast]

/-- A string starting with a nonempty prefix contains it. -/
theorem pyContains_of_prefix (pre s : String) (hne : pre.data ≠ []) :
    pyContains (pre ++ s) pre = true := by
  unfold pyContains
  rw [String.data_append]
  cases h : pre.data with
  | nil => exact absurd h hne
  | cons c cs =>
    show pyContainsAux (c :: cs) (c :: (cs ++ s.data)) = true
    unfold pyContainsAux
    have hpre : (c :: cs).isPrefixOf (c :: (cs ++ s.data)) = true := by
      rw [List.isPrefixOf_iff_prefix]
      have h2 := List.prefix_append (c :: cs) s.data
      rw [List.cons_append] at h2
      exact h2
    simp [hpre]

/-- Every canonical temperature label contains `"temp_"`. -/
theorem pyContains_mkTempKey (t : ℤ) : pyContains (mkTempKey t) "temp_" = true := by
  unfold mkTempKey
  by_cases ht : 0 ≤ t
  · rw [if_pos ht, String.append_assoc]
    exact pyContains_of_prefix "temp_" _ (by decide)
  · rw [if_neg ht]
    have h : "temp_minus" ++ toString (-t) ++ "c" =
        "temp_" ++ ("minus" ++ toString (-t) ++ "c") := by
      simp [String.append_assoc]
      rfl
    rw [h]
    exact pyContains_of_prefix "temp_" _ (by decide)

/-- Destructure a well-formed temperature entry. -/
theorem WFDistEntryB_parse {p : String × DistCell} (h : WFDistEntryB p = true)
    (hc : pyContains p.1 "temp_" = true) :
    ∃ t, distTempOfKey p.1 = some t ∧ p.1 = mkTempKey t ∧
      (List.lookup "ground_roll_ft" p.2).isSome = true ∧
      (List.lookup "total_distance_ft" p.2).isSome = true := by
  unfold WFDistEntryB at h
  rw [hc] at h
  simp only [Bool.not_true, Bool.false_or] at h
  cases hp : distTempOfKey p.1 with
  | none => rw [hp] at h; exact absurd h (by simp)
  | some t =>
    rw [hp] at h
    simp only [Bool.and_eq_true, decide_eq_true_eq] at h
    exact ⟨t, rfl, h.1.1, h.1.2, h.2⟩

/-- Under row well-formedness the temperature scan of lines 629-634
succeeds and collects exactly the parsed temperatures. -/
theorem collectDistTemps_eq :
    ∀ {d : DistPerf}, (∀ p ∈ d, WFDistEntryB p = true) →
      collectDistTemps d = .ok (rowTemps d)
  | [], _ => rfl
  | p :: rest, h => by
    have hrest := collectDistTemps_eq (d := rest) (fun q hq => h q (List.mem_cons_of_mem _ hq))
    obtain ⟨key, cell⟩ := p
    by_cases hc : pyContains key "temp_" = true
    · obtain ⟨t, hp, _, _, _⟩ := WFDistEntryB_parse (h _ (List.mem_cons_self _ _)) hc
      show collectDistTemps ((key, cell) :: rest) = .ok (rowTemps ((key, cell) :: rest))
      rw [show collectDistTemps ((key, cell) :: rest) =
          (if pyContains key "temp_" then
            match distTempOfKey key with
            | some t => (collectDistTemps rest).map (t :: ·)
            | none => .error (.valueError "invalid literal for int() with base 10")
          else collectDistTemps rest) from rfl]
      rw [hc, if_pos rfl, hp, hrest]
      rw [show rowTemps ((key, cell) :: rest) =
          (if pyContains key "temp_" then distTempOfKey key else none).toList ++ rowTemps rest
        from by simp [rowTemps, List.filterMap_cons]; split <;> simp_all]
      rw [hc, if_pos rfl, hp]
      rfl
    · have hc' : pyContains key "temp_" = false := Bool.eq_false_iff.mpr hc
      show collectDistTemps ((key, cell) :: rest) = .ok (rowTemps ((key, cell) :: rest))
      rw [show collectDistTemps ((key, cell) :: rest) =
          (if pyContains key "temp_" then
            match distTempOfKey key with
            | some t => (collectDistTemps rest).map (t :: ·)
            | none => .error (.valueError "invalid literal for int() with base 10")
          else collectDistTemps rest) from rfl]
      rw [hc', if_neg (by simp), hrest]
      rw [show rowTemps ((key, cell) :: rest) =
          (if pyContains key "temp_" then distTempOfKey key else none).toList ++ rowTemps rest
        from by simp [rowTemps, List.filterMap_cons]; split <;> simp_all]
      rw [hc', if_neg (by simp)]
      rfl

/-- Under row well-formedness the gradient point scan of lines 556-570
succeeds and collects exactly the row's points (skipping included). -/
theorem gradTempPoints_eq :
    ∀ {d : List (String × ℚ)}, (∀ p ∈ d, WFGradEntryB p = true) →
      gradTempPoints d = .ok (rowGradPoints d)
  | [], _ => rfl
  | (key, value) :: rest, h => by
    have hrest := gradTempPoints_eq (d := rest) (fun q hq => h q (List.mem_cons_of_mem _ hq))
    have hwf := h _ (List.mem_cons_self _ _)
    show gradTempPoints ((key, value) :: rest) = .ok (rowGradPoints ((key, value) :: rest))
    rw [show rowGradPoints ((key, value) :: rest) =
        (gradEntryPoint (key, value)).toList ++ rowGradPoints rest from by
      simp [rowGradPoints, List.filterMap_cons]; split <;> simp_all]
    by_cases h1 : (pyContains key "temp_" && pyContains key "ft_per_nm") = true
    · by_cases h2 : pyContains key "minus" = true
      · have hsome : (pyInt? (pyIndex (pySplit (pyIndex (pySplit key "minus") 1) "c") 0)).isSome
            = true := by
          unfold WFGradEntryB at hwf
          simp only [Bool.and_eq_true] at h1
          simp only [h1.1, h1.2, h2, Bool.and_self, Bool.not_true, Bool.false_or] at hwf
          exact hwf
        obtain ⟨n, hn⟩ := Option.isSome_iff_exists.mp hsome
        rw [show gradTempPoints ((key, value) :: rest) =
            (if pyContains key "temp_" && pyContains key "ft_per_nm" then
              if pyContains key "minus" then
                match pyInt? (pyIndex (pySplit (pyIndex (pySplit key "minus") 1) "c") 0) with
                | some n => (gradTempPoints rest).map ((((-n : ℤ) : ℚ), value) :: ·)
                | none => .error (.valueError "invalid literal for int() with base 10")
              else if pyContains key "isa" then
                (gradTempPoints rest).map (((15 : ℚ), value) :: ·)
              else
                match digitsToNat? (pyIndex (pySplit (pyIndex (pySplit key "temp_") 1) "c") 0).data with
                | some n => (gradTempPoints rest).map ((((n : ℕ) : ℚ), value) :: ·)
                | none => gradTempPoints rest
            else gradTempPoints rest) from rfl]
        rw [if_pos h1, if_pos h2, hn, hrest]
        rw [show gradEntryPoint (key, value) = some ((((-n : ℤ) : ℚ)), value) from by
          unfold gradEntryPoint
          rw [if_pos h1, if_pos h2, hn]]
        rfl
      · have h2' : pyContains key "minus" = false := Bool.eq_false_iff.mpr h2
        rw [show gradTempPoints ((key, value) :: rest) =
            (if pyContains key "temp_" && pyContains key "ft_per_nm" then
              if pyContains key "minus" then
                match pyInt? (pyIndex (pySplit (pyIndex (pySplit key "minus") 1) "c") 0) with
                | some n => (gradTempPoints rest).map ((((-n : ℤ) : ℚ), value) :: ·)
                | none => .error (.valueError "invalid literal for int() with base 10")
              else if pyContains key "isa" then
                (gradTempPoints rest).map (((15 : ℚ), value) :: ·)
              else
                match digitsToNat? (pyIndex (pySplit (pyIndex (pySplit key "temp_") 1) "c") 0).data with
                | some n => (gradTempPoints rest).map ((((n : ℕ) : ℚ), value) :: ·)
                | none => gradTempPoints rest
            else gradTempPoints rest) from rfl]
        rw [if_pos h1, if_neg (by simp [h2']), hrest]
        rw [show gradEntryPoint (key, value) =
            (if pyContains key "isa" then some ((15 : ℚ), value)
             else
               match digitsToNat? (pyIndex (pySplit (pyIndex (pySplit key "temp_") 1) "c") 0).data with
               | some n => some (((n : ℕ) : ℚ), value)
               | none => none) from by
          unfold gradEntryPoint
          rw [if_pos h1, if_neg (by simp [h2'])]]
        by_cases h3 : pyContains key "isa" = true
        · rw [if_pos h3, if_pos h3]
          rfl
        · have h3' : pyContains key "isa" = false := Bool.eq_false_iff.mpr h3
          rw [if_neg (by simp [h3']), if_neg (by simp [h3'])]
          cases hd : digitsToNat? (pyIndex (pySplit (pyIndex (pySplit key "temp_") 1) "c") 0).data with
          | some n => rfl
          | none => rfl
    · have h1' : (pyContains key "temp_" && pyContains key "ft_per_nm") = false :=
        Bool.eq_false_iff.mpr h1
      rw [show gradTempPoints ((key, value) :: rest) =
          (if pyContains key "temp_" && pyContains key "ft_per_nm" then
            if pyContains key "minus" then
              match pyInt? (pyIndex (pySplit (pyIndex (pySplit key "minus") 1) "c") 0) with
              | some n => (gradTempPoints rest).map ((((-n : ℤ) : ℚ), value) :: ·)
              | none => .error (.valueError "invalid literal for int() with base 10")
            else if pyContains key "isa" then
              (gradTempPoints rest).map (((15 : ℚ), value) :: ·)
            else
              match digitsToNat? (pyIndex (pySplit (pyIndex (pySplit key "temp_") 1) "c") 0).data with
              | some n => (gradTempPoints rest).map ((((n : ℕ) : ℚ), value) :: ·)
              | none => gradTempPoints rest
          else gradTempPoints rest) from rfl]
      rw [if_neg (by simp [h1']), hrest]
      rw [show gradEntryPoint (key, value) = none from by
        unfold gradEntryPoint
        rw [if_neg (by simp [h1'])]]
      rfl

/-- Destructure row well-formedness. -/
theorem WFDistRowB_parts {d : DistPerf} (h : WFDistRowB d = true) :
    (∃ p ∈ d, pyContains p.1 "temp_" = true) ∧ (∀ p ∈ d, WFDistEntryB p = true) ∧
      (rowTemps d).Nodup := by
  unfold WFDistRowB at h
  simp only [Bool.and_eq_true, List.any_eq_true, List.all_eq_true, decide_eq_true_eq] at h
  exact ⟨h.1.1, h.1.2, h.2⟩

/-- Helper: the head of a `≤`-chain bounds every member. -/
theorem chain'_head?_le {α : Type} [Preorder α] {l : List α} {a x : α}
    (hc : l.Chain' (· ≤ ·)) (ha : l.head? = some a) (hx : x ∈ l) : a ≤ x := by
  cases l with
  | nil => exact absurd hx (List.not_mem_nil x)
  | cons b rest =>
    simp only [List.head?_cons, Option.some.injEq] at ha
    exact ha ▸ chain'_head_le hc hx

/-- An out-of-range temperature makes `_interpolate_temperature` raise
the source's `ValueError`. -/
theorem interpolate_temperature_error_of_outside {T : ℚ} {d : DistPerf} (m : String)
    (hwf : WFDistRowB d = true) (ho : tempOutsideB T d = true) :
    interpolate_temperature T d m = .error (.valueError "Temperature outside data range") := by
  obtain ⟨_, hall, _⟩ := WFDistRowB_parts hwf
  have hcollect := collectDistTemps_eq hall
  unfold tempOutsideB at ho
  cases hmin : (pySortZ (rowTemps d)).min? with
  | none =>
    rw [hmin] at ho
    simp at ho
  | some mn =>
    cases hmax : (pySortZ (rowTemps d)).max? with
    | none =>
      rw [hmin, hmax] at ho
      simp at ho
    | some mx =>
      rw [hmin, hmax] at ho
      have hcond : T < (mn : ℚ) ∨ (mx : ℚ) < T := of_decide_eq_true ho
      unfold interpolate_temperature
      rw [hcollect, exceptBind_ok]
      simp only [hmin, hmax]
      rw [if_pos hcond]

/-- Key reconstruction and field lookup succeed for every parsed
temperature of a well-formed row. -/
theorem dist_lookup_metric {d : DistPerf} (hall : ∀ p ∈ d, WFDistEntryB p = true)
    {t : ℤ} (ht : t ∈ rowTemps d) {m : String}
    (hm : m = "ground_roll_ft" ∨ m = "total_distance_ft") :
    ∃ c v, List.lookup (mkTempKey t) d = some c ∧ List.lookup m c = some v := by
  obtain ⟨p, hp, hfp⟩ := List.mem_filterMap.mp ht
  by_cases hc : pyContains p.1 "temp_" = true
  · rw [hc, if_pos rfl] at hfp
    obtain ⟨t', hp', hkey, _, _⟩ := WFDistEntryB_parse (hall p hp) hc
    rw [hp'] at hfp
    have htt : t' = t := Option.some.inj hfp
    subst htt
    have hpmem : (mkTempKey t', p.2) ∈ d := by
      rw [← hkey]
      exact hp
    obtain ⟨c, hc1⟩ := lookup_isSome_of_mem hpmem
    have hcmem := mem_of_lookup_eq_some hc1
    obtain ⟨t2, _, _, hg2, htd2⟩ :=
      WFDistEntryB_parse (hall _ hcmem) (pyContains_mkTempKey t')
    rcases hm with rfl | rfl
    · obtain ⟨v, hv⟩ := Option.isSome_iff_exists.mp hg2
      exact ⟨c, v, hc1, hv⟩
    · obtain ⟨v, hv⟩ := Option.isSome_iff_exists.mp htd2
      exact ⟨c, v, hc1, hv⟩
  · rw [Bool.eq_false_iff.mpr hc, if_neg (by simp)] at hfp
    exact absurd hfp (by simp)

/-- A well-formed row has at least one parsed temperature. -/
theorem rowTemps_ne_nil {d : DistPerf} (hwf : WFDistRowB d = true) : rowTemps d ≠ [] := by
  obtain ⟨⟨p, hp, hc⟩, hall, _⟩ := WFDistRowB_parts hwf
  obtain ⟨t, hparse, _, _, _⟩ := WFDistEntryB_parse (hall p hp) hc
  intro hnil
  have : t ∈ rowTemps d := List.mem_filterMap.mpr ⟨p, hp, by rw [hc, if_pos rfl]; exact hparse⟩
  rw [hnil] at this
  exact absurd this (List.not_mem_nil t)

/-- An in-range temperature query on a well-formed row succeeds. -/
theorem interpolate_temperature_ok_of_wf {T : ℚ} {d : DistPerf} {m : String}
    (hwf : WFDistRowB d = true) (ho : tempOutsideB T d = false)
    (hm : m = "ground_roll_ft" ∨ m = "total_distance_ft") :
    ∃ v, interpolate_temperature T d m = .ok v := by
  obtain ⟨_, hall, _⟩ := WFDistRowB_parts hwf
  have hcollect := collectDistTemps_eq hall
  have hne := rowTemps_ne_nil hwf
  have hsne : pySortZ (rowTemps d) ≠ [] := by
    intro h
    have hp := pySortZ_perm (rowTemps d)
    rw [h] at hp
    exact hne hp.symm.eq_nil
  cases hmin : (pySortZ (rowTemps d)).min? with
  | none => exact absurd (List.min?_eq_none_iff.mp hmin) hsne
  | some mn =>
  cases hmax : (pySortZ (rowTemps d)).max? with
  | none => exact absurd (List.max?_eq_none_iff.mp hmax) hsne
  | some mx =>
  have hcond : ¬(T < (mn : ℚ) ∨ (mx : ℚ) < T) := by
    unfold tempOutsideB at ho
    rw [hmin, hmax] at ho
    exact of_decide_eq_false ho
  push_neg at hcond
  obtain ⟨hmnT, hTmx⟩ := hcond
  have hchainZ := chain'_pySortZ (rowTemps d)
  have hchain : List.Chain' (· ≤ ·) ((pySortZ (rowTemps d)).map (Int.cast : ℤ → ℚ)) :=
    List.chain'_map_of_chain' (Int.cast : ℤ → ℚ) (fun a b h => by exact_mod_cast h) hchainZ
  have htscne : (pySortZ (rowTemps d)).map (Int.cast : ℤ → ℚ) ≠ [] := by
    simpa using hsne
  have hmnmem : mn ∈ pySortZ (rowTemps d) := List.min?_mem (fun a b => min_choice a b) hmin
  have hmxmem : mx ∈ pySortZ (rowTemps d) := List.max?_mem (fun a b => max_choice a b) hmax
  have hhead : ∀ a, ((pySortZ (rowTemps d)).map (Int.cast : ℤ → ℚ)).head? = some a → a ≤ T := by
    intro a ha
    rw [List.head?_map] at ha
    obtain ⟨a0, ha0, hcast⟩ := Option.map_eq_some'.mp ha
    have ha0mn : a0 ≤ mn := chain'_head?_le hchainZ ha0 hmnmem
    have : (a0 : ℚ) ≤ (mn : ℚ) := by exact_mod_cast ha0mn
    rw [← hcast]
    exact le_trans this hmnT
  have hlast : ∀ b, ((pySortZ (rowTemps d)).map (Int.cast : ℤ → ℚ)).getLast? = some b → T ≤ b := by
    intro b hb
    rw [List.getLast?_map] at hb
    obtain ⟨b0, hb0, hcast⟩ := Option.map_eq_some'.mp hb
    have hmxb0 : mx ≤ b0 := chain'_le_getLast _ hchainZ mx hmxmem b0 hb0
    have : (mx : ℚ) ≤ (b0 : ℚ) := by exact_mod_cast hmxb0
    rw [← hcast]
    exact le_trans hTmx this
  obtain ⟨hm1, hm2, _, _⟩ :=
    findBracket_covers T ((pySortZ (rowTemps d)).map (Int.cast : ℤ → ℚ)) htscne hchain hhead hlast
  obtain ⟨t1, ht1, he1⟩ := List.mem_map.mp hm1
  obtain ⟨t2, ht2, he2⟩ := List.mem_map.mp hm2
  have ht1' : t1 ∈ rowTemps d := (pySortZ_perm (rowTemps d)).mem_iff.mp ht1
  have ht2' : t2 ∈ rowTemps d := (pySortZ_perm (rowTemps d)).mem_iff.mp ht2
  obtain ⟨c1, v1, hc1, hv1⟩ := dist_lookup_metric hall ht1' hm
  obtain ⟨c2, v2, hc2, hv2⟩ := dist_lookup_metric hall ht2' hm
  by_cases h12 :
      (findBracket T ((pySortZ (rowTemps d)).map (Int.cast : ℤ → ℚ))).1 =
        (findBracket T ((pySortZ (rowTemps d)).map (Int.cast : ℤ → ℚ))).2
  · refine ⟨v1, ?_⟩
    unfold interpolate_temperature
    rw [hcollect, exceptBind_ok]
    simp only [hmin, hmax]
    rw [if_neg (by push_neg; exact ⟨hmnT, hTmx⟩)]
    rw [← he1, ← he2, tempKeyFor_intCast t1, tempKeyFor_intCast t2]
    simp only [hc1, hv1, hc2, hv2]
    rw [if_pos (by rw [he1, he2]; exact h12)]
  · refine ⟨v1 + (T - (t1 : ℚ)) / ((t2 : ℚ) - (t1 : ℚ)) * (v2 - v1), ?_⟩
    unfold interpolate_temperature
    rw [hcollect, exceptBind_ok]
    simp only [hmin, hmax]
    rw [if_neg (by push_neg; exact ⟨hmnT, hTmx⟩)]
    rw [← he1, ← he2, tempKeyFor_intCast t1, tempKeyFor_intCast t2]
    simp only [hc1, hv1, hc2, hv2]
    rw [if_neg (by rw [he1, he2]; exact h12)]

/-- Destructure gradient-row well-formedness. -/
theorem WFGradRowB_parts {d : List (String × ℚ)} (h : WFGradRowB d = true) :
    (∀ p ∈ d, WFGradEntryB p = true) ∧ rowGradPoints d ≠ [] := by
  unfold WFGradRowB at h
  simp only [Bool.and_eq_true, List.all_eq_true, Bool.not_eq_true'] at h
  exact ⟨h.1, by simpa using h.2⟩

/-- An out-of-range temperature makes
`_interpolate_gradient_temperature` raise the source's `ValueError`. -/
theorem interpolate_gradient_temperature_error_of_outside {T : ℚ} {d : List (String × ℚ)}
    (hwf : WFGradRowB d = true) (ho : gradTempOutsideB T d = true) :
    interpolate_gradient_temperature T d = .error (.valueError "Temperature outside range") := by
  obtain ⟨hall, _⟩ := WFGradRowB_parts hwf
  have hpts := gradTempPoints_eq hall
  unfold gradTempOutsideB at ho
  cases hmin : ((pySortPairs (rowGradPoints d)).map (fun p : ℚ × ℚ => p.1)).min? with
  | none =>
    rw [hmin] at ho
    simp at ho
  | some mn =>
    cases hmax : ((pySortPairs (rowGradPoints d)).map (fun p : ℚ × ℚ => p.1)).max? with
    | none =>
      rw [hmin, hmax] at ho
      simp at ho
    | some mx =>
      rw [hmin, hmax] at ho
      have hcond : T < mn ∨ mx < T := of_decide_eq_true ho
      unfold interpolate_gradient_temperature
      rw [hpts, exceptBind_ok]
      simp only [hmin, hmax]
      rw [if_pos hcond]

/-- An in-range temperature query on a well-formed gradient row
succeeds. -/
theorem interpolate_gradient_temperature_ok_of_wf {T : ℚ} {d : List (String × ℚ)}
    (hwf : WFGradRowB d = true) (ho : gradTempOutsideB T d = false) :
    ∃ v, interpolate_gradient_temperature T d = .ok v := by
  obtain ⟨hall, hne⟩ := WFGradRowB_parts hwf
  have hpts := gradTempPoints_eq hall
  have hsne : pySortPairs (rowGradPoints d) ≠ [] := by
    intro h
    have hp := pySortPairs_perm (rowGradPoints d)
    rw [h] at hp
    exact hne hp.symm.eq_nil
  have htne : (pySortPairs (rowGradPoints d)).map (·.1) ≠ [] := by
    simpa using hsne
  cases hmin : ((pySortPairs (rowGradPoints d)).map (fun p : ℚ × ℚ => p.1)).min? with
  | none => exact absurd (List.min?_eq_none_iff.mp hmin) htne
  | some mn =>
  cases hmax : ((pySortPairs (rowGradPoints d)).map (fun p : ℚ × ℚ => p.1)).max? with
  | none => exact absurd (List.max?_eq_none_iff.mp hmax) htne
  | some mx =>
  have hcond : ¬(T < mn ∨ mx < T) := by
    unfold gradTempOutsideB at ho
    rw [hmin, hmax] at ho
    exact of_decide_eq_false ho
  push_neg at hcond
  obtain ⟨hmnT, hTmx⟩ := hcond
  have hchainP := chain'_fst_pySortPairs (rowGradPoints d)
  have hchainT : List.Chain' (· ≤ ·) ((pySortPairs (rowGradPoints d)).map (fun p : ℚ × ℚ => p.1)) :=
    List.chain'_map_of_chain' (fun p : ℚ × ℚ => p.1) (fun _ _ h => h) hchainP
  have hmnmem : mn ∈ (pySortPairs (rowGradPoints d)).map (fun p : ℚ × ℚ => p.1) :=
    List.min?_mem (fun a b => min_choice a b) hmin
  have hmxmem : mx ∈ (pySortPairs (rowGradPoints d)).map (fun p : ℚ × ℚ => p.1) :=
    List.max?_mem (fun a b => max_choice a b) hmax
  have hhead : ∀ p, (pySortPairs (rowGradPoints d)).head? = some p → p.1 ≤ T := by
    intro p hp
    have hpt : ((pySortPairs (rowGradPoints d)).map (fun p : ℚ × ℚ => p.1)).head? = some p.1 := by
      rw [List.head?_map, hp]
      rfl
    exact le_trans (chain'_head?_le hchainT hpt hmnmem) hmnT
  have hlast : ∀ p, (pySortPairs (rowGradPoints d)).getLast? = some p → T ≤ p.1 := by
    intro p hp
    have hpt : ((pySortPairs (rowGradPoints d)).map (fun p : ℚ × ℚ => p.1)).getLast? = some p.1 := by
      rw [List.getLast?_map, hp]
      rfl
    exact le_trans hTmx
      (chain'_le_getLast _ hchainT mx hmxmem p.1 hpt)
  rcases gradFindBracket_covers T (pySortPairs (rowGradPoints d)) hsne hchainP hhead hlast with
    ⟨p, q, heq, _, _, _, _⟩ | ⟨heq, p, hpmem, hpe⟩
  · by_cases hpq : p.1 = q.1
    · refine ⟨p.2, ?_⟩
      unfold interpolate_gradient_temperature
      rw [hpts, exceptBind_ok]
      simp only [hmin, hmax]
      rw [if_neg (by push_neg; exact ⟨hmnT, hTmx⟩)]
      rw [heq]
      simp only [if_pos hpq]
    · refine ⟨p.2 + (T - p.1) / (q.1 - p.1) * (q.2 - p.2), ?_⟩
      unfold interpolate_gradient_temperature
      rw [hpts, exceptBind_ok]
      simp only [hmin, hmax]
      rw [if_neg (by push_neg; exact ⟨hmnT, hTmx⟩)]
      rw [heq]
      simp only [if_neg hpq]
  · have hfind : ∃ y, (pySortPairs (rowGradPoints d)).find?
        (fun p => decide (p.1 = T)) = some y :=
      find?_isSome_of_mem ⟨p, hpmem, by simp [hpe]⟩
    obtain ⟨y, hy⟩ := hfind
    refine ⟨y.2, ?_⟩
    unfold interpolate_gradient_temperature
    rw [hpts, exceptBind_ok]
    simp only [hmin, hmax]
    rw [if_neg (by push_neg; exact ⟨hmnT, hTmx⟩)]
    rw [heq, hy]

/-- Destructure table well-formedness (distance). -/
theorem WFDistB_parts {conds : List DistCondition} (h : WFDistB conds = true) :
    conds ≠ [] ∧ (conds.map (·.pressure_altitude_ft)).Nodup ∧
      (∀ c ∈ conds, WFDistRowB c.performance = true) := by
  unfold WFDistB at h
  simp only [Bool.and_eq_true, Bool.not_eq_true', List.isEmpty_eq_false_iff_exists_mem,
    decide_eq_true_eq, List.all_eq_true] at h
  obtain ⟨⟨⟨x, hx⟩, hnd⟩, hall⟩ := h
  exact ⟨List.ne_nil_of_mem hx, hnd, hall⟩

/-- The full error contract of `interpolate_performance` on a
well-formed distance table: it raises exactly when the pressure
altitude is strictly outside the table's altitude span or the
temperature is strictly outside the span of a bracketing row. -/
theorem interp_perf_error_iff {conds : List DistCondition} {pa T : ℚ}
    (hwf : WFDistB conds = true) :
    (∃ e, interpolate_performance conds pa T = .error e) ↔
      (altOutsideB (conds.map (·.pressure_altitude_ft)) pa = true ∨
        distBracketTempOutside conds pa T) := by
  obtain ⟨hne, _, hrows⟩ := WFDistB_parts hwf
  have haltne : conds.map (·.pressure_altitude_ft) ≠ [] := by
    simpa using hne
  have hsne : pySortQ (conds.map (·.pressure_altitude_ft)) ≠ [] := by
    intro h
    have hp := pySortQ_perm (conds.map (·.pressure_altitude_ft))
    rw [h] at hp
    exact haltne hp.symm.eq_nil
  cases hmin : (pySortQ (conds.map (·.pressure_altitude_ft))).min? with
  | none => exact absurd (List.min?_eq_none_iff.mp hmin) hsne
  | some mn =>
  cases hmax : (pySortQ (conds.map (·.pressure_altitude_ft))).max? with
  | none => exact absurd (List.max?_eq_none_iff.mp hmax) hsne
  | some mx =>
  by_cases houts : pa < mn ∨ mx < pa
  · have hl : interpolate_performance conds pa T =
        .error (.valueError "Pressure altitude outside data range") := by
      unfold interpolate_performance
      simp only [hmin, hmax]
      rw [if_pos houts]
    have hr : altOutsideB (conds.map (·.pressure_altitude_ft)) pa = true := by
      unfold altOutsideB
      rw [hmin, hmax]
      exact decide_eq_true houts
    exact iff_of_true ⟨_, hl⟩ (Or.inl hr)
  · push_neg at houts
    obtain ⟨hmnpa, hpamx⟩ := houts
    have haltfalse : altOutsideB (conds.map (·.pressure_altitude_ft)) pa = false := by
      unfold altOutsideB
      rw [hmin, hmax]
      simp only [decide_eq_false_iff_not]
      push_neg
      exact ⟨hmnpa, hpamx⟩
    have hchain := chain'_pySortQ (conds.map (·.pressure_altitude_ft))
    have hmnmem := List.min?_mem (fun a b => min_choice a b) hmin
    have hmxmem := List.max?_mem (fun a b => max_choice a b) hmax
    have hhead : ∀ a, (pySortQ (conds.map (·.pressure_altitude_ft))).head? = some a → a ≤ pa :=
      fun a ha => le_trans (chain'_head?_le hchain ha hmnmem) hmnpa
    have hlast : ∀ b, (pySortQ (conds.map (·.pressure_altitude_ft))).getLast? = some b →
        pa ≤ b :=
      fun b hb => le_trans hpamx (chain'_le_getLast _ hchain mx hmxmem b hb)
    obtain ⟨hb1, hb2, _, _⟩ :=
      findBracket_covers pa (pySortQ (conds.map (·.pressure_altitude_ft))) hsne hchain hhead hlast
    have hb1' : (findBracket pa (pySortQ (conds.map (·.pressure_altitude_ft)))).1 ∈
        conds.map (·.pressure_altitude_ft) :=
      (pySortQ_perm _).mem_iff.mp hb1
    have hb2' : (findBracket pa (pySortQ (conds.map (·.pressure_altitude_ft)))).2 ∈
        conds.map (·.pressure_altitude_ft) :=
      (pySortQ_perm _).mem_iff.mp hb2
    obtain ⟨c1, hc1mem, hc1alt⟩ := List.mem_map.mp hb1'
    obtain ⟨c2, hc2mem, hc2alt⟩ := List.mem_map.mp hb2'
    obtain ⟨lo, hflo⟩ := find?_isSome_of_mem
      ⟨c1, hc1mem, by simp [hc1alt]⟩
      (p := fun c => decide
        (c.pressure_altitude_ft = (findBracket pa (pySortQ (conds.map (·.pressure_altitude_ft)))).1))
    obtain ⟨hi, hfhi⟩ := find?_isSome_of_mem
      ⟨c2, hc2mem, by simp [hc2alt]⟩
      (p := fun c => decide
        (c.pressure_altitude_ft = (findBracket pa (pySortQ (conds.map (·.pressure_altitude_ft)))).2))
    have hlomem : lo ∈ conds := List.mem_of_find?_eq_some hflo
    have hhimem : hi ∈ conds := List.mem_of_find?_eq_some hfhi
    have hlowf := hrows lo hlomem
    have hhiwf := hrows hi hhimem
    have hbr : distBracketRows conds pa = some (lo, hi) := by
      unfold distBracketRows
      simp only [hflo, hfhi]
    have hmain : interpolate_performance conds pa T =
        (do
          let grLo ← interpolate_temperature T lo.performance "ground_roll_ft"
          let grHi ← interpolate_temperature T hi.performance "ground_roll_ft"
          let gr :=
            if (findBracket pa (pySortQ (conds.map (·.pressure_altitude_ft)))).1 =
                (findBracket pa (pySortQ (conds.map (·.pressure_altitude_ft)))).2 then grLo
            else grLo +
              (pa - (findBracket pa (pySortQ (conds.map (·.pressure_altitude_ft)))).1) /
              ((findBracket pa (pySortQ (conds.map (·.pressure_altitude_ft)))).2 -
                (findBracket pa (pySortQ (conds.map (·.pressure_altitude_ft)))).1) *
              (grHi - grLo)
          let tdLo ← interpolate_temperature T lo.performance "total_distance_ft"
          let tdHi ← interpolate_temperature T hi.performance "total_distance_ft"
          let td :=
            if (findBracket pa (pySortQ (conds.map (·.pressure_altitude_ft)))).1 =
                (findBracket pa (pySortQ (conds.map (·.pressure_altitude_ft)))).2 then tdLo
            else tdLo +
              (pa - (findBracket pa (pySortQ (conds.map (·.pressure_altitude_ft)))).1) /
              ((findBracket pa (pySortQ (conds.map (·.pressure_altitude_ft)))).2 -
                (findBracket pa (pySortQ (conds.map (·.pressure_altitude_ft)))).1) *
              (tdHi - tdLo)
          .ok [("ground_roll_ft", distanceRound gr), ("total_distance_ft", distanceRound td)]) := by
      unfold interpolate_performance
      simp only [hmin, hmax]
      rw [if_neg (by push_neg; exact ⟨hmnpa, hpamx⟩)]
      simp only [hflo, hfhi]
    by_cases ho1 : tempOutsideB T lo.performance = true
    · have herr := interpolate_temperature_error_of_outside "ground_roll_ft" hlowf ho1
      have hl : interpolate_performance conds pa T =
          .error (.valueError "Temperature outside data range") := by
        rw [hmain, herr]
        rfl
      exact iff_of_true ⟨_, hl⟩ (Or.inr ⟨lo, hi, hbr, Or.inl ho1⟩)
    · have ho1' : tempOutsideB T lo.performance = false := Bool.eq_false_iff.mpr ho1
      by_cases ho2 : tempOutsideB T hi.performance = true
      · obtain ⟨v1, hv1⟩ := interpolate_temperature_ok_of_wf hlowf ho1' (Or.inl rfl)
        have herr := interpolate_temperature_error_of_outside "ground_roll_ft" hhiwf ho2
        have hl : interpolate_performance conds pa T =
            .error (.valueError "Temperature outside data range") := by
          rw [hmain, hv1, exceptBind_ok, herr]
          rfl
        exact iff_of_true ⟨_, hl⟩ (Or.inr ⟨lo, hi, hbr, Or.inr ho2⟩)
      · have ho2' : tempOutsideB T hi.performance = false := Bool.eq_false_iff.mpr ho2
        obtain ⟨v1, hv1⟩ := interpolate_temperature_ok_of_wf hlowf ho1' (Or.inl rfl)
        obtain ⟨v2, hv2⟩ := interpolate_temperature_ok_of_wf hhiwf ho2' (Or.inl rfl)
        obtain ⟨v3, hv3⟩ := interpolate_temperature_ok_of_wf hlowf ho1' (Or.inr rfl)
        obtain ⟨v4, hv4⟩ := interpolate_temperature_ok_of_wf hhiwf ho2' (Or.inr rfl)
        have hok : ∃ r, interpolate_performance conds pa T = .ok r := by
          have h := hmain
          rw [hv1, exceptBind_ok] at h
          rw [hv2, exceptBind_ok] at h
          rw [hv3, exceptBind_ok] at h
          rw [hv4, exceptBind_ok] at h
          exact ⟨_, h⟩
        have hl : ¬∃ e, interpolate_performance conds pa T = .error e := by
          rintro ⟨e, he⟩
          obtain ⟨r, hr⟩ := hok
          rw [hr] at he
          exact absurd he (by simp)
        have hr : ¬(altOutsideB (conds.map (·.pressure_altitude_ft)) pa = true ∨
            distBracketTempOutside conds pa T) := by
          rintro (h | ⟨lo', hi', hbr', hor⟩)
          · rw [haltfalse] at h
            exact absurd h (by simp)
          · rw [hbr] at hbr'
            obtain ⟨rfl, rfl⟩ : lo = lo' ∧ hi = hi' := by
              have := Option.some.inj hbr'
              exact ⟨congrArg Prod.fst this, congrArg Prod.snd this⟩
            rcases hor with h | h
            · rw [ho1'] at h
              exact absurd h (by simp)
            · rw [ho2'] at h
              exact absurd h (by simp)
        exact iff_of_false hl hr

/-- Destructure table well-formedness (gradient). -/
theorem WFGradB_parts {conds : List GradCondition} (h : WFGradB conds = true) :
    conds ≠ [] ∧ (conds.map (·.pressure_altitude_ft)).Nodup ∧
      (∀ c ∈ conds, WFGradRowB c.performance = true) := by
  unfold WFGradB at h
  simp only [Bool.and_eq_true, Bool.not_eq_true', List.isEmpty_eq_false_iff_exists_mem,
    decide_eq_true_eq, List.all_eq_true] at h
  obtain ⟨⟨⟨x, hx⟩, hnd⟩, hall⟩ := h
  exact ⟨List.ne_nil_of_mem hx, hnd, hall⟩

/-- The full error contract of `_interpolate_climb_gradient` on a
well-formed gradient table. -/
theorem interp_grad_error_iff {conds : List GradCondition} {pa T : ℚ}
    (hwf : WFGradB conds = true) :
    (∃ e, interpolate_climb_gradient conds pa T = .error e) ↔
      (altOutsideB (conds.map (·.pressure_altitude_ft)) pa = true ∨
        gradBracketTempOutside conds pa T) := by
  obtain ⟨hne, _, hrows⟩ := WFGradB_parts hwf
  have haltne : conds.map (·.pressure_altitude_ft) ≠ [] := by
    simpa using hne
  have hsne : pySortQ (conds.map (·.pressure_altitude_ft)) ≠ [] := by
    intro h
    have hp := pySortQ_perm (conds.map (·.pressure_altitude_ft))
    rw [h] at hp
    exact haltne hp.symm.eq_nil
  cases hmin : (pySortQ (conds.map (·.pressure_altitude_ft))).min? with
  | none => exact absurd (List.min?_eq_none_iff.mp hmin) hsne
  | some mn =>
  cases hmax : (pySortQ (conds.map (·.pressure_altitude_ft))).max? with
  | none => exact absurd (List.max?_eq_none_iff.mp hmax) hsne
  | some mx =>
  by_cases houts : pa < mn ∨ mx < pa
  · have hl : interpolate_climb_gradient conds pa T = .error (.valueError "PA outside range") := by
      unfold interpolate_climb_gradient
      simp only [hmin, hmax]
      rw [if_pos houts]
    have hr : altOutsideB (conds.map (·.pressure_altitude_ft)) pa = true := by
      unfold altOutsideB
      rw [hmin, hmax]
      exact decide_eq_true houts
    exact iff_of_true ⟨_, hl⟩ (Or.inl hr)
  · push_neg at houts
    obtain ⟨hmnpa, hpamx⟩ := houts
    have haltfalse : altOutsideB (conds.map (·.pressure_altitude_ft)) pa = false := by
      unfold altOutsideB
      rw [hmin, hmax]
      simp only [decide_eq_false_iff_not]
      push_neg
      exact ⟨hmnpa, hpamx⟩
    have hchain := chain'_pySortQ (conds.map (·.pressure_altitude_ft))
    have hmnmem := List.min?_mem (fun a b => min_choice a b) hmin
    have hmxmem := List.max?_mem (fun a b => max_choice a b) hmax
    have hhead : ∀ a, (pySortQ (conds.map (·.pressure_altitude_ft))).head? = some a → a ≤ pa :=
      fun a ha => le_trans (chain'_head?_le hchain ha hmnmem) hmnpa
    have hlast : ∀ b, (pySortQ (conds.map (·.pressure_altitude_ft))).getLast? = some b →
        pa ≤ b :=
      fun b hb => le_trans hpamx (chain'_le_getLast _ hchain mx hmxmem b hb)
    obtain ⟨hb1, hb2, _, _⟩ :=
      findBracket_covers pa (pySortQ (conds.map (·.pressure_altitude_ft))) hsne hchain hhead hlast
    have hb1' : (findBracket pa (pySortQ (conds.map (·.pressure_altitude_ft)))).1 ∈
        conds.map (·.pressure_altitude_ft) :=
      (pySortQ_perm _).mem_iff.mp hb1
    have hb2' : (findBracket pa (pySortQ (conds.map (·.pressure_altitude_ft)))).2 ∈
        conds.map (·.pressure_altitude_ft) :=
      (pySortQ_perm _).mem_iff.mp hb2
    obtain ⟨c1, hc1mem, hc1alt⟩ := List.mem_map.mp hb1'
    obtain ⟨c2, hc2mem, hc2alt⟩ := List.mem_map.mp hb2'
    obtain ⟨lo, hflo⟩ := find?_isSome_of_mem
      ⟨c1, hc1mem, by simp [hc1alt]⟩
      (p := fun c => decide
        (c.pressure_altitude_ft = (findBracket pa (pySortQ (conds.map (·.pressure_altitude_ft)))).1))
    obtain ⟨hi, hfhi⟩ := find?_isSome_of_mem
      ⟨c2, hc2mem, by simp [hc2alt]⟩
      (p := fun c => decide
        (c.pressure_altitude_ft = (findBracket pa (pySortQ (conds.map (·.pressure_altitude_ft)))).2))
    have hlomem : lo ∈ conds := List.mem_of_find?_eq_some hflo
    have hhimem : hi ∈ conds := List.mem_of_find?_eq_some hfhi
    have hlowf := hrows lo hlomem
    have hhiwf := hrows hi hhimem
    have hbr : gradBracketRows conds pa = some (lo, hi) := by
      unfold gradBracketRows
      simp only [hflo, hfhi]
    have hmain : interpolate_climb_gradient conds pa T =
        (do
          let low_gradient ← interpolate_gradient_temperature T lo.performance
          let high_gradient ← interpolate_gradient_temperature T hi.performance
          if (findBracket pa (pySortQ (conds.map (·.pressure_altitude_ft)))).1 =
              (findBracket pa (pySortQ (conds.map (·.pressure_altitude_ft)))).2 then
            .ok low_gradient
          else
            .ok (low_gradient +
              (pa - (findBracket pa (pySortQ (conds.map (·.pressure_altitude_ft)))).1) /
              ((findBracket pa (pySortQ (conds.map (·.pressure_altitude_ft)))).2 -
                (findBracket pa (pySortQ (conds.map (·.pressure_altitude_ft)))).1) *
              (high_gradient - low_gradient))) := by
      unfold interpolate_climb_gradient
      simp only [hmin, hmax]
      rw [if_neg (by push_neg; exact ⟨hmnpa, hpamx⟩)]
      simp only [hflo, hfhi]
    by_cases ho1 : gradTempOutsideB T lo.performance = true
    · have herr := interpolate_gradient_temperature_error_of_outside hlowf ho1
      have hl : interpolate_climb_gradient conds pa T =
          .error (.valueError "Temperature outside range") := by
        rw [hmain, herr]
        rfl
      exact iff_of_true ⟨_, hl⟩ (Or.inr ⟨lo, hi, hbr, Or.inl ho1⟩)
    · have ho1' : gradTempOutsideB T lo.performance = false := Bool.eq_false_iff.mpr ho1
      by_cases ho2 : gradTempOutsideB T hi.performance = true
      · obtain ⟨v1, hv1⟩ := interpolate_gradient_temperature_ok_of_wf hlowf ho1'
        have herr := interpolate_gradient_temperature_error_of_outside hhiwf ho2
        have hl : interpolate_climb_gradient conds pa T =
            .error (.valueError "Temperature outside range") := by
          rw [hmain, hv1, exceptBind_ok, herr]
          rfl
        exact iff_of_true ⟨_, hl⟩ (Or.inr ⟨lo, hi, hbr, Or.inr ho2⟩)
      · have ho2' : gradTempOutsideB T hi.performance = false := Bool.eq_false_iff.mpr ho2
        obtain ⟨v1, hv1⟩ := interpolate_gradient_temperature_ok_of_wf hlowf ho1'
        obtain ⟨v2, hv2⟩ := interpolate_gradient_temperature_ok_of_wf hhiwf ho2'
        have hok : ∃ r, interpolate_climb_gradient conds pa T = .ok r := by
          have h := hmain
          rw [hv1, exceptBind_ok] at h
          rw [hv2, exceptBind_ok] at h
          by_cases hpq : (findBracket pa (pySortQ (conds.map (·.pressure_altitude_ft)))).1 =
              (findBracket pa (pySortQ (conds.map (·.pressure_altitude_ft)))).2
          · rw [if_pos hpq] at h
            exact ⟨_, h⟩
          · rw [if_neg hpq] at h
            exact ⟨_, h⟩
        have hl : ¬∃ e, interpolate_climb_gradient conds pa T = .error e := by
          rintro ⟨e, he⟩
          obtain ⟨r, hr⟩ := hok
          rw [hr] at he
          exact absurd he (by simp)
        have hr : ¬(altOutsideB (conds.map (·.pressure_altitude_ft)) pa = true ∨
            gradBracketTempOutside conds pa T) := by
          rintro (h | ⟨lo', hi', hbr', hor⟩)
          · rw [haltfalse] at h
            exact absurd h (by simp)
          · rw [hbr] at hbr'
            obtain ⟨rfl, rfl⟩ : lo = lo' ∧ hi = hi' := by
              have := Option.some.inj hbr'
              exact ⟨congrArg Prod.fst this, congrArg Prod.snd this⟩
            rcases hor with h | h
            · rw [ho1'] at h
              exact absurd h (by simp)
            · rw [ho2'] at h
              exact absurd h (by simp)
        exact iff_of_false hl hr

/-- `foldl min` stays below its initial value. -/
theorem foldl_min_le_init {α : Type} [LinearOrder α] :
    ∀ (l : List α) (z : α), l.foldl min z ≤ z
  | [], z => le_refl z
  | c :: rest, z =>
    le_trans (foldl_min_le_init rest (min z c)) (min_le_left z c)

/-- `foldl min` is below every element folded over. -/
theorem foldl_min_le_mem {α : Type} [LinearOrder α] :
    ∀ {l : List α} (z : α) {x : α}, x ∈ l → l.foldl min z ≤ x
  | [], _, x, hx => absurd hx (List.not_mem_nil x)
  | c :: rest, z, x, hx => by
    rcases List.mem_cons.mp hx with rfl | hx'
    · exact le_trans (foldl_min_le_init rest (min z x)) (min_le_right z x)
    · exact foldl_min_le_mem (min z c) hx'

/-- `foldl max` stays above its initial value. -/
theorem le_foldl_max_init {α : Type} [LinearOrder α] :
    ∀ (l : List α) (z : α), z ≤ l.foldl max z
  | [], z => le_refl z
  | c :: rest, z =>
    le_trans (le_max_left z c) (le_foldl_max_init rest (max z c))

/-- `foldl max` is above every element folded over. -/
theorem le_foldl_max_mem {α : Type} [LinearOrder α] :
    ∀ {l : List α} (z : α) {x : α}, x ∈ l → x ≤ l.foldl max z
  | [], _, x, hx => absurd hx (List.not_mem_nil x)
  | c :: rest, z, x, hx => by
    rcases List.mem_cons.mp hx with rfl | hx'
    · exact le_trans (le_max_right z x) (le_foldl_max_init rest (max z x))
    · exact le_foldl_max_mem (max z c) hx'

/-- The list minimum bounds every member. -/
theorem min?_le_of_mem {α : Type} [LinearOrder α] {l : List α} {a x : α}
    (ha : l.min? = some a) (hx : x ∈ l) : a ≤ x := by
  cases l with
  | nil => exact absurd hx (List.not_mem_nil x)
  | cons b rest =>
    rw [List.min?_cons'] at ha
    have ha' : a = rest.foldl min b := (Option.some.inj ha).symm
    subst ha'
    rcases List.mem_cons.mp hx with rfl | hx'
    · exact foldl_min_le_init rest x
    · exact foldl_min_le_mem b hx'

/-- Every member is bounded by the list maximum. -/
theorem le_max?_of_mem {α : Type} [LinearOrder α] {l : List α} {a x : α}
    (ha : l.max? = some a) (hx : x ∈ l) : x ≤ a := by
  cases l with
  | nil => exact absurd hx (List.not_mem_nil x)
  | cons b rest =>
    rw [List.max?_cons'] at ha
    have ha' : a = rest.foldl max b := (Option.some.inj ha).symm
    subst ha'
    rcases List.mem_cons.mp hx with rfl | hx'
    · exact le_foldl_max_init rest x
    · exact le_foldl_max_mem b hx'

/-- A duplicate-free `≤`-chain is a `<`-chain. -/
theorem chain'_lt_of_le_nodup {α : Type} [LinearOrder α] {l : List α}
    (hc : l.Chain' (· ≤ ·)) (hn : l.Nodup) : l.Chain' (· < ·) := by
  rw [List.chain'_iff_pairwise] at hc ⊢
  exact (hc.and hn).imp (fun h => lt_of_le_of_ne h.1 h.2)

/-- With distinct parsed temperatures a canonical key determines its
cell: `lookup` returns exactly the entry's cell. -/
theorem lookup_unique_of_nodupTemps :
    ∀ {d : DistPerf}, (∀ p ∈ d, WFDistEntryB p = true) → (rowTemps d).Nodup →
      ∀ {k : String} {cell : DistCell}, (k, cell) ∈ d → pyContains k "temp_" = true →
      List.lookup k d = some cell
  | [], _, _, _, _, hmem, _ => absurd hmem (List.not_mem_nil _)
  | (k', c') :: rest, hall, hnodup, k, cell, hmem, hc => by
    by_cases hkk : k = k'
    · subst hkk
      have hcell : cell = c' := by
        rcases List.mem_cons.mp hmem with heq | hmem'
        · exact congrArg Prod.snd heq
        · exfalso
          obtain ⟨t0, hp0, _, _, _⟩ := WFDistEntryB_parse (hall _ (List.mem_cons_self _ _)) hc
          have h1 : rowTemps ((k, c') :: rest) = t0 :: rowTemps rest := by
            unfold rowTemps
            rw [List.filterMap_cons, hc, if_pos rfl, hp0]
          have h2 : t0 ∈ rowTemps rest :=
            List.mem_filterMap.mpr ⟨(k, cell), hmem', by rw [hc, if_pos rfl]; exact hp0⟩
          rw [h1] at hnodup
          exact (List.nodup_cons.mp hnodup).1 h2
      subst hcell
      simp [List.lookup]
    · have hbeq : (k == k') = false := beq_eq_false_iff_ne.mpr hkk
      have hmem' : (k, cell) ∈ rest := by
        rcases List.mem_cons.mp hmem with heq | hmem'
        · exact absurd (congrArg Prod.fst heq) hkk
        · exact hmem'
      have hnodup' : (rowTemps rest).Nodup := by
        have hsub : rowTemps ((k', c') :: rest) =
            (if pyContains k' "temp_" then distTempOfKey k' else none).toList ++
              rowTemps rest := by
          simp [rowTemps, List.filterMap_cons]
          split <;> simp_all
        rw [hsub] at hnodup
        exact hnodup.of_append_right
      have := lookup_unique_of_nodupTemps
        (fun q hq => hall q (List.mem_cons_of_mem _ hq)) hnodup' hmem' hc
      simpa [List.lookup, hbeq] using this

/-- With distinct pressure altitudes `find?` on a row's own altitude
returns that row. -/
theorem find?_alt_unique :
    ∀ {conds : List DistCondition}, (conds.map (·.pressure_altitude_ft)).Nodup →
      ∀ {r : DistCondition}, r ∈ conds →
      conds.find? (fun c => decide (c.pressure_altitude_ft = r.pressure_altitude_ft)) = some r
  | [], _, _, hmem => absurd hmem (List.not_mem_nil _)
  | c' :: rest, hnodup, r, hmem => by
    by_cases halt : c'.pressure_altitude_ft = r.pressure_altitude_ft
    · have hr : c' = r := by
        rcases List.mem_cons.mp hmem with heq | hmem'
        · exact heq.symm
        · exfalso
          rw [List.map_cons] at hnodup
          have : r.pressure_altitude_ft ∈ rest.map (·.pressure_altitude_ft) :=
            List.mem_map_of_mem _ hmem'
          rw [← halt] at this
          exact (List.nodup_cons.mp hnodup).1 this
      rw [List.find?_cons_of_pos _ (by simp [halt])]
      rw [hr]
    · have hmem' : r ∈ rest := by
        rcases List.mem_cons.mp hmem with heq | hmem'
        · exact absurd (congrArg (·.pressure_altitude_ft) heq.symm) halt
        · exact hmem'
      rw [List.find?_cons_of_neg _ (by simp [halt])]
      exact find?_alt_unique (by rw [List.map_cons] at hnodup; exact (List.nodup_cons.mp hnodup).2)
        hmem'

/-- An `Except` that is not an error is a success. -/
theorem except_ok_of_not_error {ε α : Type} {x : Except ε α}
    (h : ¬∃ e, x = .error e) : ∃ v, x = .ok v := by
  cases x with
  | error e => exact absurd ⟨e, rfl⟩ h
  | ok v => exact ⟨v, rfl⟩

/-- Boundary exactness at row level: querying a well-formed row at the
parsed temperature of one of its literal keys returns exactly the
stored cell value. -/
theorem interpolate_temperature_exact {d : DistPerf} (hwf : WFDistRowB d = true)
    {k : String} {cell : DistCell} {t0 : ℤ} {m : String} {v : ℚ}
    (hmem : (k, cell) ∈ d) (hc : pyContains k "temp_" = true)
    (ht0 : distTempOfKey k = some t0)
    (hv : List.lookup m cell = some v)
    (hm : m = "ground_roll_ft" ∨ m = "total_distance_ft") :
    interpolate_temperature ((t0 : ℤ) : ℚ) d m = .ok v := by
  obtain ⟨_, hall, hnodup⟩ := WFDistRowB_parts hwf
  have hcollect := collectDistTemps_eq hall
  obtain ⟨t', hp', hkey, _, _⟩ := WFDistEntryB_parse (hall _ hmem) hc
  have ht' : t' = t0 := Option.some.inj (hp' ▸ ht0)
  subst ht'
  -- the entry's key is the canonical label of the queried temperature
  have ht0mem : t' ∈ rowTemps d :=
    List.mem_filterMap.mpr ⟨(k, cell), hmem, by rw [hc, if_pos rfl]; exact ht0⟩
  have hts : t' ∈ pySortZ (rowTemps d) := (pySortZ_perm (rowTemps d)).mem_iff.mpr ht0mem
  have hsne : pySortZ (rowTemps d) ≠ [] := List.ne_nil_of_mem hts
  cases hmin : (pySortZ (rowTemps d)).min? with
  | none => exact absurd (List.min?_eq_none_iff.mp hmin) hsne
  | some mn =>
  cases hmax : (pySortZ (rowTemps d)).max? with
  | none => exact absurd (List.max?_eq_none_iff.mp hmax) hsne
  | some mx =>
  have hmn : mn ≤ t' := min?_le_of_mem hmin hts
  have hmx : t' ≤ mx := le_max?_of_mem hmax hts
  have hnodups : (pySortZ (rowTemps d)).Nodup := (pySortZ_perm (rowTemps d)).nodup_iff.mpr hnodup
  have hchainZ := chain'_pySortZ (rowTemps d)
  have hstrictc : List.Chain' (· < ·) ((pySortZ (rowTemps d)).map (Int.cast : ℤ → ℚ)) :=
    List.chain'_map_of_chain' (Int.cast : ℤ → ℚ) (fun a b h => by exact_mod_cast h)
      (chain'_lt_of_le_nodup hchainZ hnodups)
  have hchainc : List.Chain' (· ≤ ·) ((pySortZ (rowTemps d)).map (Int.cast : ℤ → ℚ)) :=
    List.chain'_map_of_chain' (Int.cast : ℤ → ℚ) (fun a b h => by exact_mod_cast h) hchainZ
  have htsc : ((t' : ℤ) : ℚ) ∈ (pySortZ (rowTemps d)).map (Int.cast : ℤ → ℚ) :=
    List.mem_map_of_mem _ hts
  have hcne : (pySortZ (rowTemps d)).map (Int.cast : ℤ → ℚ) ≠ [] := List.ne_nil_of_mem htsc
  have hhead : ∀ a, ((pySortZ (rowTemps d)).map (Int.cast : ℤ → ℚ)).head? = some a →
      a ≤ ((t' : ℤ) : ℚ) :=
    fun a ha => chain'_head?_le hchainc ha htsc
  have hlast : ∀ b, ((pySortZ (rowTemps d)).map (Int.cast : ℤ → ℚ)).getLast? = some b →
      ((t' : ℤ) : ℚ) ≤ b :=
    fun b hb => chain'_le_getLast _ hchainc _ htsc b hb
  obtain ⟨hb1, hb2, hle1, hle2⟩ := findBracket_covers ((t' : ℤ) : ℚ)
    ((pySortZ (rowTemps d)).map (Int.cast : ℤ → ℚ)) hcne hchainc hhead hlast
  have hex := findBracket_exact ((t' : ℤ) : ℚ)
    ((pySortZ (rowTemps d)).map (Int.cast : ℤ → ℚ)) hstrictc htsc hhead
  obtain ⟨t1, ht1, he1⟩ := List.mem_map.mp hb1
  obtain ⟨t2, ht2, he2⟩ := List.mem_map.mp hb2
  have ht1' : t1 ∈ rowTemps d := (pySortZ_perm (rowTemps d)).mem_iff.mp ht1
  have ht2' : t2 ∈ rowTemps d := (pySortZ_perm (rowTemps d)).mem_iff.mp ht2
  obtain ⟨c1, v1, hc1, hv1⟩ := dist_lookup_metric hall ht1' hm
  obtain ⟨c2, v2, hc2, hv2⟩ := dist_lookup_metric hall ht2' hm
  have hlookup_exact : List.lookup (mkTempKey t') d = some cell := by
    rw [← hkey]
    exact lookup_unique_of_nodupTemps hall hnodup hmem hc
  have hnotlt : ¬(((t' : ℤ) : ℚ) < (mn : ℚ) ∨ (mx : ℚ) < ((t' : ℤ) : ℚ)) := by
    push_neg
    constructor
    · exact_mod_cast hmn
    · exact_mod_cast hmx
  unfold interpolate_temperature
  rw [hcollect, exceptBind_ok]
  simp only [hmin, hmax]
  rw [if_neg hnotlt]
  rw [← he1, ← he2, tempKeyFor_intCast t1, tempKeyFor_intCast t2]
  rcases hex with hx1 | hx2
  · -- the low bracket endpoint is the queried temperature
    have ht1t0 : t1 = t' := by
      have h := he1.trans hx1
      exact_mod_cast h
    rw [ht1t0]
    simp only [hlookup_exact, hv, hc2, hv2]
    by_cases h12 : ((t' : ℤ) : ℚ) = ((t2 : ℤ) : ℚ)
    · rw [if_pos h12]
    · rw [if_neg h12, sub_self, zero_div, zero_mul, add_zero]
  · -- the high bracket endpoint is the queried temperature
    have ht2t0 : t2 = t' := by
      have h := he2.trans hx2
      exact_mod_cast h
    rw [ht2t0]
    simp only [hc1, hv1, hlookup_exact, hv]
    by_cases h12 : ((t1 : ℤ) : ℚ) = ((t' : ℤ) : ℚ)
    · rw [if_pos h12]
      have ht1t0 : t1 = t' := by exact_mod_cast h12
      rw [ht1t0] at hc1
      have hcc : c1 = cell := Option.some.inj (hc1.symm.trans hlookup_exact)
      rw [hcc] at hv1
      have hvv : v1 = v := Option.some.inj (hv1.symm.trans hv)
      rw [hvv]
    · rw [if_neg h12]
      have hne : ((t' : ℤ) : ℚ) - ((t1 : ℤ) : ℚ) ≠ 0 :=
        sub_ne_zero.mpr (fun h => h12 h.symm)
      rw [div_self hne, one_mul]
      congr 1
      ring

/-- C6 — Boundary exactness: for any condition row present verbatim in
a well-formed distance table (§3 invariants, including that every row's
temperature span covers the queried label, as guaranteed by the
specification's isomorphic-key-set invariant) and any literal
temperature key of that row, querying `interpolate_performance` at
exactly `(row.pressure_altitude_ft, parsed_temp_of_key)` returns
exactly that cell's stored values after the configured rounding
(`distanceRound`, nearest 50 ft), with zero interpolation error. -/
theorem interpolate_performance_boundary_exact
    {conds : List DistCondition} {r : DistCondition} {k : String} {cell : DistCell}
    {t0 : ℤ} {vg vt : ℚ}
    (hwf : WFDistB conds = true) (hr : r ∈ conds)
    (hcell : (k, cell) ∈ r.performance) (hk : pyContains k "temp_" = true)
    (ht0 : distTempOfKey k = some t0)
    (hcover : ∀ c ∈ conds, tempOutsideB ((t0 : ℤ) : ℚ) c.performance = false)
    (hvg : List.lookup "ground_roll_ft" cell = some vg)
    (hvt : List.lookup "total_distance_ft" cell = some vt) :
    interpolate_performance conds r.pressure_altitude_ft ((t0 : ℤ) : ℚ) =
      .ok [("ground_roll_ft", distanceRound vg), ("total_distance_ft", distanceRound vt)] := by
  obtain ⟨hne, hnodup, hrows⟩ := WFDistB_parts hwf
  have hAmem : r.pressure_altitude_ft ∈ conds.map (·.pressure_altitude_ft) :=
    List.mem_map_of_mem _ hr
  have hAs : r.pressure_altitude_ft ∈ pySortQ (conds.map (·.pressure_altitude_ft)) :=
    (pySortQ_perm _).mem_iff.mpr hAmem
  have hsne : pySortQ (conds.map (·.pressure_altitude_ft)) ≠ [] := List.ne_nil_of_mem hAs
  cases hmin : (pySortQ (conds.map (·.pressure_altitude_ft))).min? with
  | none => exact absurd (List.min?_eq_none_iff.mp hmin) hsne
  | some mn =>
  cases hmax : (pySortQ (conds.map (·.pressure_altitude_ft))).max? with
  | none => exact absurd (List.max?_eq_none_iff.mp hmax) hsne
  | some mx =>
  have hmn : mn ≤ r.pressure_altitude_ft := min?_le_of_mem hmin hAs
  have hmx : r.pressure_altitude_ft ≤ mx := le_max?_of_mem hmax hAs
  have hnotlt : ¬(r.pressure_altitude_ft < mn ∨ mx < r.pressure_altitude_ft) := by
    push_neg
    exact ⟨hmn, hmx⟩
  have hchain := chain'_pySortQ (conds.map (·.pressure_altitude_ft))
  have hnodups : (pySortQ (conds.map (·.pressure_altitude_ft))).Nodup :=
    (pySortQ_perm _).nodup_iff.mpr hnodup
  have hstrict := chain'_lt_of_le_nodup hchain hnodups
  have hhead : ∀ a, (pySortQ (conds.map (·.pressure_altitude_ft))).head? = some a →
      a ≤ r.pressure_altitude_ft :=
    fun a ha => chain'_head?_le hchain ha hAs
  have hlast : ∀ b, (pySortQ (conds.map (·.pressure_altitude_ft))).getLast? = some b →
      r.pressure_altitude_ft ≤ b :=
    fun b hb => chain'_le_getLast _ hchain _ hAs b hb
  obtain ⟨hb1, hb2, hle1, hle2⟩ := findBracket_covers r.pressure_altitude_ft
    (pySortQ (conds.map (·.pressure_altitude_ft))) hsne hchain hhead hlast
  have hex := findBracket_exact r.pressure_altitude_ft
    (pySortQ (conds.map (·.pressure_altitude_ft))) hstrict hAs hhead
  have hb1' := (pySortQ_perm _).mem_iff.mp hb1
  have hb2' := (pySortQ_perm _).mem_iff.mp hb2
  obtain ⟨c1, hc1mem, hc1alt⟩ := List.mem_map.mp hb1'
  obtain ⟨c2, hc2mem, hc2alt⟩ := List.mem_map.mp hb2'
  have hexg : interpolate_temperature ((t0 : ℤ) : ℚ) r.performance "ground_roll_ft" = .ok vg :=
    interpolate_temperature_exact (hrows r hr) hcell hk ht0 hvg (Or.inl rfl)
  have hext : interpolate_temperature ((t0 : ℤ) : ℚ) r.performance "total_distance_ft" = .ok vt :=
    interpolate_temperature_exact (hrows r hr) hcell hk ht0 hvt (Or.inr rfl)
  rcases hex with hx1 | hx2
  · -- the low bracket row is the queried row
    have hflo : conds.find? (fun c => decide (c.pressure_altitude_ft =
        (findBracket r.pressure_altitude_ft
          (pySortQ (conds.map (·.pressure_altitude_ft)))).1)) = some r := by
      rw [hx1]
      exact find?_alt_unique hnodup hr
    obtain ⟨hi, hfhi⟩ := find?_isSome_of_mem
      ⟨c2, hc2mem, by simp [hc2alt]⟩
      (p := fun c => decide (c.pressure_altitude_ft =
        (findBracket r.pressure_altitude_ft
          (pySortQ (conds.map (·.pressure_altitude_ft)))).2))
    have hhimem : hi ∈ conds := List.mem_of_find?_eq_some hfhi
    obtain ⟨w2g, hw2g⟩ := interpolate_temperature_ok_of_wf (hrows hi hhimem)
      (hcover hi hhimem) (Or.inl rfl)
    obtain ⟨w2t, hw2t⟩ := interpolate_temperature_ok_of_wf (hrows hi hhimem)
      (hcover hi hhimem) (Or.inr rfl)
    unfold interpolate_performance
    simp only [hmin, hmax]
    rw [if_neg hnotlt]
    simp only [hflo, hfhi]
    rw [hexg, exceptBind_ok, hw2g, exceptBind_ok, hext, exceptBind_ok, hw2t, exceptBind_ok]
    by_cases h12 : (findBracket r.pressure_altitude_ft
        (pySortQ (conds.map (·.pressure_altitude_ft)))).1 =
        (findBracket r.pressure_altitude_ft
          (pySortQ (conds.map (·.pressure_altitude_ft)))).2
    · rw [if_pos h12, if_pos h12]
    · rw [if_neg h12, if_neg h12, hx1]
      simp only [sub_self, zero_div, zero_mul, add_zero]
  · -- the high bracket row is the queried row
    have hfhi : conds.find? (fun c => decide (c.pressure_altitude_ft =
        (findBracket r.pressure_altitude_ft
          (pySortQ (conds.map (·.pressure_altitude_ft)))).2)) = some r := by
      rw [hx2]
      exact find?_alt_unique hnodup hr
    obtain ⟨lo, hflo⟩ := find?_isSome_of_mem
      ⟨c1, hc1mem, by simp [hc1alt]⟩
      (p := fun c => decide (c.pressure_altitude_ft =
        (findBracket r.pressure_altitude_ft
          (pySortQ (conds.map (·.pressure_altitude_ft)))).1))
    have hlomem : lo ∈ conds := List.mem_of_find?_eq_some hflo
    obtain ⟨w1g, hw1g⟩ := interpolate_temperature_ok_of_wf (hrows lo hlomem)
      (hcover lo hlomem) (Or.inl rfl)
    obtain ⟨w1t, hw1t⟩ := interpolate_temperature_ok_of_wf (hrows lo hlomem)
      (hcover lo hlomem) (Or.inr rfl)
    by_cases h12 : (findBracket r.pressure_altitude_ft
        (pySortQ (conds.map (·.pressure_altitude_ft)))).1 =
        (findBracket r.pressure_altitude_ft
          (pySortQ (conds.map (·.pressure_altitude_ft)))).2
    · -- both brackets collapse onto the queried row
      have hflo' : conds.find? (fun c => decide (c.pressure_altitude_ft =
          (findBracket r.pressure_altitude_ft
            (pySortQ (conds.map (·.pressure_altitude_ft)))).1)) = some r := by
        rw [h12, hx2]
        exact find?_alt_unique hnodup hr
      have hlor : lo = r := Option.some.inj (hflo.symm.trans hflo')
      subst hlor
      unfold interpolate_performance
      simp only [hmin, hmax]
      rw [if_neg hnotlt]
      simp only [hflo, hfhi]
      simp only [hexg, hext, exceptBind_ok]
      rw [if_pos h12, if_pos h12]
    · have hne1 : r.pressure_altitude_ft - (findBracket r.pressure_altitude_ft
          (pySortQ (conds.map (·.pressure_altitude_ft)))).1 ≠ 0 := by
        rw [sub_ne_zero]
        intro h
        exact h12 (h ▸ hx2.symm)
      have harr : ∀ a b : ℚ, a + (b - a) = b := fun a b => by ring
      unfold interpolate_performance
      simp only [hmin, hmax]
      rw [if_neg hnotlt]
      simp only [hflo, hfhi]
      rw [hw1g, exceptBind_ok, hexg, exceptBind_ok, hw1t, exceptBind_ok, hext, exceptBind_ok]
      rw [if_neg h12, if_neg h12, hx2]
      rw [div_self hne1, one_mul, one_mul, harr, harr]

/-- The first wind-normalisation loop never leaves a value above 180. -/
theorem normLoop1_le (d : ℤ) : normLoop1 d ≤ 180 := by
  induction d using normLoop1.induct with
  | case1 d h ih =>
    unfold normLoop1
    rw [if_pos h]
    exact ih
  | case2 d h =>
    unfold normLoop1
    rw [if_neg h]
    omega

/-- The second wind-normalisation loop never leaves a value below −180. -/
theorem normLoop2_ge (d : ℤ) : -180 ≤ normLoop2 d := by
  induction d using normLoop2.induct with
  | case1 d h ih =>
    unfold normLoop2
    rw [if_pos h]
    exact ih
  | case2 d h =>
    unfold normLoop2
    rw [if_neg h]
    omega

/-- The second loop preserves the upper bound established by the first. -/
theorem normLoop2_le (d : ℤ) : d ≤ 180 → normLoop2 d ≤ 180 := by
  induction d using normLoop2.induct with
  | case1 d h ih =>
    intro _
    unfold normLoop2
    rw [if_pos h]
    exact ih (by omega)
  | case2 d h =>
    intro hd
    unfold normLoop2
    rw [if_neg h]
    exact hd

/-- The normalised angle difference lies in `[-180, 180]`. -/
theorem normAngle_range (d : ℤ) : -180 ≤ normAngle d ∧ normAngle d ≤ 180 :=
  ⟨normLoop2_ge _, normLoop2_le _ (normLoop1_le d)⟩

/-- Normalising a zero angle difference is the identity. -/
theorem normAngle_zero : normAngle 0 = 0 := by
  have h1 : normLoop1 0 = 0 := by
    unfold normLoop1
    norm_num
  have h2 : normLoop2 0 = 0 := by
    unfold normLoop2
    norm_num
  rw [normAngle, h1, h2]

/-- Python float rounding of an integer is that integer. -/
theorem pyRoundR_intCast (n : ℤ) : pyRoundR ((n : ℤ) : ℝ) = n := by
  unfold pyRoundR
  simp only [Int.floor_intCast, sub_self]
  norm_num

/-- Python float rounding preserves nonnegativity. -/
theorem pyRoundR_nonneg {x : ℝ} (h : 0 ≤ x) : 0 ≤ pyRoundR x := by
  have h0 : 0 ≤ ⌊x⌋ := Int.floor_nonneg.mpr h
  unfold pyRoundR
  simp only []
  split_ifs <;> omega

/-- An unparsable temperature label makes the scan of lines 629-634
raise before any interpolation happens. -/
theorem collectDistTemps_error_of_bad :
    ∀ {d : DistPerf}, (∃ p ∈ d, pyContains p.1 "temp_" = true ∧ distTempOfKey p.1 = none) →
      ∃ e, collectDistTemps d = .error e
  | [], ⟨_, h, _⟩ => absurd h (List.not_mem_nil _)
  | (key, cell) :: rest, ⟨p, hp, hc, hparse⟩ => by
    show ∃ e, collectDistTemps ((key, cell) :: rest) = .error e
    rw [show collectDistTemps ((key, cell) :: rest) =
        (if pyContains key "temp_" then
          match distTempOfKey key with
          | some t => (collectDistTemps rest).map (t :: ·)
          | none => .error (.valueError "invalid literal for int() with base 10")
        else collectDistTemps rest) from rfl]
    rcases List.mem_cons.mp hp with rfl | hp'
    · rw [hc, if_pos rfl, hparse]
      exact ⟨_, rfl⟩
    · by_cases h1 : pyContains key "temp_" = true
      · rw [h1, if_pos rfl]
        cases hk : distTempOfKey key with
        | none => exact ⟨_, rfl⟩
        | some t =>
          obtain ⟨e, he⟩ := collectDistTemps_error_of_bad ⟨p, hp', hc, hparse⟩
          rw [he]
          exact ⟨e, rfl⟩
      · rw [Bool.eq_false_iff.mpr h1, if_neg (by simp)]
        exact collectDistTemps_error_of_bad ⟨p, hp', hc, hparse⟩

/-- A row containing an unparsable temperature label makes every
temperature interpolation on it fail. -/
theorem interpolate_temperature_error_of_bad {T : ℚ} {d : DistPerf} (m : String)
    (h : ∃ p ∈ d, pyContains p.1 "temp_" = true ∧ distTempOfKey p.1 = none) :
    ∃ e, interpolate_temperature T d m = .error e := by
  obtain ⟨e, he⟩ := collectDistTemps_error_of_bad h
  refine ⟨e, ?_⟩
  unfold interpolate_temperature
  rw [he, exceptBind_error]

/-- Mapping a function over the result of a four-step `Except` chain
commutes with pushing it into the final success value. -/
theorem map_bind4 (e1 e2 e3 e4 : Except PyError ℚ)
    (g : ℚ → ℚ → ℚ → ℚ → List (String × ℚ)) :
    (e1 >>= fun a => e2 >>= fun b => e3 >>= fun c => e4 >>= fun d =>
        Except.ok (g a b c d)).map (fun l => l.map (fun p => (p.1, distanceRound p.2))) =
      (e1 >>= fun a => e2 >>= fun b => e3 >>= fun c => e4 >>= fun d =>
        Except.ok ((g a b c d).map (fun p => (p.1, distanceRound p.2)))) := by
  cases e1 <;> cases e2 <;> cases e3 <;> cases e4 <;> rfl

/-- C1: for a takeoff/landing-distance table with condition rows at
pressure altitudes 0 and 2000 ft, each row with temperature columns
`temp_0c` and `temp_20c`, `interpolate_performance` at query
`(1000, 10)` first interpolates temperature within each altitude row
(first two conjuncts: each row yields the mean of its two cells) and
then interpolates between the two per-row results along the altitude
axis, returning for each field the arithmetic mean of that field's four
corner values within the configured nearest-50 rounding. -/
theorem interpolate_performance_midpoint_mean (g00 g01 t00 t01 g10 g11 t10 t11 : ℚ) :
    interpolate_temperature 10
        [("temp_0c", [("ground_roll_ft", g00), ("total_distance_ft", t00)]),
         ("temp_20c", [("ground_roll_ft", g01), ("total_distance_ft", t01)])]
        "ground_roll_ft" = .ok ((g00 + g01) / 2) ∧
    interpolate_temperature 10
        [("temp_0c", [("ground_roll_ft", g10), ("total_distance_ft", t10)]),
         ("temp_20c", [("ground_roll_ft", g11), ("total_distance_ft", t11)])]
        "ground_roll_ft" = .ok ((g10 + g11) / 2) ∧
    interpolate_performance
        [⟨0, [("temp_0c", [("ground_roll_ft", g00), ("total_distance_ft", t00)]),
              ("temp_20c", [("ground_roll_ft", g01), ("total_distance_ft", t01)])]⟩,
         ⟨2000, [("temp_0c", [("ground_roll_ft", g10), ("total_distance_ft", t10)]),
                 ("temp_20c", [("ground_roll_ft", g11), ("total_distance_ft", t11)])]⟩]
        1000 10 =
      .ok [("ground_roll_ft", distanceRound ((g00 + g01 + g10 + g11) / 4)),
           ("total_distance_ft", distanceRound ((t00 + t01 + t10 + t11) / 4))] := by
  refine ⟨?_, ?_, ?_⟩
  · rw [show interpolate_temperature 10
        [("temp_0c", [("ground_roll_ft", g00), ("total_distance_ft", t00)]),
         ("temp_20c", [("ground_roll_ft", g01), ("total_distance_ft", t01)])]
        "ground_roll_ft" =
      .ok (g00 + (10 - ((0 : ℤ) : ℚ)) / (((20 : ℤ) : ℚ) - ((0 : ℤ) : ℚ)) * (g01 - g00))
      from rfl]
    congr 1
    push_cast
    ring
  · rw [show interpolate_temperature 10
        [("temp_0c", [("ground_roll_ft", g10), ("total_distance_ft", t10)]),
         ("temp_20c", [("ground_roll_ft", g11), ("total_distance_ft", t11)])]
        "ground_roll_ft" =
      .ok (g10 + (10 - ((0 : ℤ) : ℚ)) / (((20 : ℤ) : ℚ) - ((0 : ℤ) : ℚ)) * (g11 - g10))
      from rfl]
    congr 1
    push_cast
    ring
  · rw [show interpolate_performance
        [⟨0, [("temp_0c", [("ground_roll_ft", g00), ("total_distance_ft", t00)]),
              ("temp_20c", [("ground_roll_ft", g01), ("total_distance_ft", t01)])]⟩,
         ⟨2000, [("temp_0c", [("ground_roll_ft", g10), ("total_distance_ft", t10)]),
                 ("temp_20c", [("ground_roll_ft", g11), ("total_distance_ft", t11)])]⟩]
        1000 10 =
      .ok [("ground_roll_ft", distanceRound
              ((g00 + (10 - ((0 : ℤ) : ℚ)) / (((20 : ℤ) : ℚ) - ((0 : ℤ) : ℚ)) * (g01 - g00)) +
                (1000 - 0) / (2000 - 0) *
                  ((g10 + (10 - ((0 : ℤ) : ℚ)) / (((20 : ℤ) : ℚ) - ((0 : ℤ) : ℚ)) * (g11 - g10)) -
                    (g00 + (10 - ((0 : ℤ) : ℚ)) / (((20 : ℤ) : ℚ) - ((0 : ℤ) : ℚ)) * (g01 - g00))))),
           ("total_distance_ft", distanceRound
              ((t00 + (10 - ((0 : ℤ) : ℚ)) / (((20 : ℤ) : ℚ) - ((0 : ℤ) : ℚ)) * (t01 - t00)) +
                (1000 - 0) / (2000 - 0) *
                  ((t10 + (10 - ((0 : ℤ) : ℚ)) / (((20 : ℤ) : ℚ) - ((0 : ℤ) : ℚ)) * (t11 - t10)) -
                    (t00 + (10 - ((0 : ℤ) : ℚ)) / (((20 : ℤ) : ℚ) - ((0 : ℤ) : ℚ)) * (t01 - t00)))))]
      from rfl]
    simp only [Except.ok.injEq, List.cons.injEq, Prod.mk.injEq, true_and, and_true]
    refine ⟨?_, ?_⟩ <;> (congr 1; push_cast; ring)

/-- C3 counterexample: in `_interpolate_gradient_temperature` the
`temp_isa` label is anchored at the constant 15 °C in every row.  For a
row at 4000 ft the claimed anchor would be the row's ISA temperature,
`calculate_isa_temp 4000 = 7`, yet the parsed points place the isa cell
at 15, and the interpolator returns the isa cell exactly at a query of
15 °C — not at 7 °C — so the anchor is not the row's own ISA value. -/
theorem temp_isa_fixed_anchor_counterexample :
    gradTempPoints [("temp_minus20c_ft_per_nm", 100), ("temp_isa_ft_per_nm", 300)] =
      .ok [((((-20 : ℤ)) : ℚ), 100), (15, 300)] ∧
    interpolate_climb_gradient
        [⟨4000, [("temp_minus20c_ft_per_nm", 100), ("temp_isa_ft_per_nm", 300)]⟩] 4000 15 =
      .ok 300 ∧
    calculate_isa_temp 4000 = 7 ∧ (15 : ℚ) ≠ 7 := by
  refine ⟨rfl, ?_, by with_unfolding_all decide, by norm_num⟩
  rw [show interpolate_climb_gradient
      [⟨4000, [("temp_minus20c_ft_per_nm", 100), ("temp_isa_ft_per_nm", 300)]⟩] 4000 15 =
    .ok (100 + (15 - (((-20 : ℤ)) : ℚ)) / ((15 : ℚ) - (((-20 : ℤ)) : ℚ)) * (300 - 100))
    from rfl]
  congr 1
  push_cast
  ring

/-- C3 amended: the `temp_isa` label is resolved to the fixed constant
15 °C (the sea-level ISA temperature) in every climb-gradient row: the
label parser contributes the point `(15, value)` regardless of the
row's pressure altitude, which it does not even receive, so the numeric
position of the isa anchor is the same in every row. -/
theorem temp_isa_fixed_anchor (v : ℚ) (rest : List (String × ℚ)) :
    gradTempPoints (("temp_isa_ft_per_nm", v) :: rest) =
      (gradTempPoints rest).map (((15 : ℚ), v) :: ·) := rfl

/-- C4 corrected: distance results are indeed rounded to the nearest
50 ft exactly once per field after all interpolation completes — the
first conjunct factors `interpolate_performance` as the unrounded
interpolation followed by one `distanceRound` per field — but
climb-gradient results are returned unrounded: the second conjunct
exhibits a gradient interpolation whose result `15 / 2` is not a
multiple of 10 and differs from its value rounded to the nearest
10 ft/NM, so no nearest-10 rounding is ever applied to gradients. -/
theorem rounding_once_distances_never_gradients :
    (∀ (conds : List DistCondition) (pa T : ℚ),
      interpolate_performance conds pa T =
        (interpolate_performance_raw conds pa T).map
          (fun l => l.map (fun p => (p.1, distanceRound p.2)))) ∧
    (interpolate_climb_gradient
        [⟨0, [("temp_0c_ft_per_nm", 0), ("temp_30c_ft_per_nm", 15)]⟩] 0 15 =
      .ok (15 / 2) ∧
      (15 / 2 : ℚ) ≠ (pyRound ((15 / 2) / 10) : ℚ) * 10) := by
  refine ⟨?_, ?_, ?_⟩
  · intro conds pa T
    unfold interpolate_performance interpolate_performance_raw
    simp only []
    cases hmin : (pySortQ (conds.map (·.pressure_altitude_ft))).min? with
    | none => rfl
    | some mn =>
      cases hmax : (pySortQ (conds.map (·.pressure_altitude_ft))).max? with
      | none => rfl
      | some mx =>
        by_cases hout : pa < mn ∨ mx < pa
        · simp only [if_pos hout]
          rfl
        · simp only [if_neg hout]
          cases hflo : conds.find? (fun c => decide (c.pressure_altitude_ft =
              (findBracket pa (pySortQ (conds.map (·.pressure_altitude_ft)))).1)) with
          | none => rfl
          | some lo =>
            cases hfhi : conds.find? (fun c => decide (c.pressure_altitude_ft =
                (findBracket pa (pySortQ (conds.map (·.pressure_altitude_ft)))).2)) with
            | none => rfl
            | some hi =>
              simp only []
              cases h1 : interpolate_temperature T lo.performance "ground_roll_ft" with
              | error e => rfl
              | ok v1 =>
                cases h2 : interpolate_temperature T hi.performance "ground_roll_ft" with
                | error e => rfl
                | ok v2 =>
                  cases h3 : interpolate_temperature T lo.performance "total_distance_ft" with
                  | error e => rfl
                  | ok v3 =>
                    cases h4 : interpolate_temperature T hi.performance "total_distance_ft" with
                    | error e => rfl
                    | ok v4 => rfl
  · rw [show interpolate_climb_gradient
        [⟨0, [("temp_0c_ft_per_nm", 0), ("temp_30c_ft_per_nm", 15)]⟩] 0 15 =
      .ok (0 + (15 - ((0 : ℕ) : ℚ)) / (((30 : ℕ) : ℚ) - ((0 : ℕ) : ℚ)) * (15 - 0))
      from rfl]
    congr 1
    push_cast
    ring
  · with_unfolding_all decide

/-- C5 counterexample: a climb-gradient row containing the unparsable
temperature label `temp_abc_ft_per_nm` does not make interpolation fail:
the label is silently skipped and the result `150` is computed from the
two remaining cells alone, contradicting the claim that every table with
an unparsable label fails fast rather than computing from the rest. -/
theorem unparsable_label_silent_skip_counterexample :
    interpolate_climb_gradient
        [⟨0, [("temp_abc_ft_per_nm", 999), ("temp_0c_ft_per_nm", 100),
              ("temp_20c_ft_per_nm", 200)]⟩] 0 10 = .ok 150 := by
  rw [show interpolate_climb_gradient
      [⟨0, [("temp_abc_ft_per_nm", 999), ("temp_0c_ft_per_nm", 100),
            ("temp_20c_ft_per_nm", 200)]⟩] 0 10 =
    .ok (100 + (10 - ((0 : ℕ) : ℚ)) / (((20 : ℕ) : ℚ) - ((0 : ℕ) : ℚ)) * (200 - 100))
    from rfl]
  congr 1
  push_cast
  norm_num

/-- C5 amended: the two interpolators treat malformed tables
differently.  Distance tables fail fast: any row key starting from
`temp_` whose temperature cannot be parsed makes
`_interpolate_temperature` raise (first conjunct), and a missing
expected field raises a `KeyError` at first use (second conjunct).
Climb-gradient tables do not: `_interpolate_gradient_temperature`
silently skips an unparsable label (third conjunct) and computes its
result from the remaining cells (fourth conjunct). -/
theorem fail_fast_vs_silent_skip :
    (∀ (T : ℚ) (d : DistPerf) (m : String),
      (∃ p ∈ d, pyContains p.1 "temp_" = true ∧ distTempOfKey p.1 = none) →
      ∃ e, interpolate_temperature T d m = .error e) ∧
    (interpolate_temperature 10
        [("temp_0c", [("ground_roll_ft", 1)]), ("temp_20c", [("ground_roll_ft", 2)])]
        "total_distance_ft" = .error (.keyError "total_distance_ft")) ∧
    (∀ (v : ℚ) (rest : List (String × ℚ)),
      gradTempPoints (("temp_abc_ft_per_nm", v) :: rest) = gradTempPoints rest) ∧
    (interpolate_climb_gradient
        [⟨0, [("temp_abc_ft_per_nm", 999), ("temp_0c_ft_per_nm", 100),
              ("temp_20c_ft_per_nm", 200)]⟩] 0 5 = .ok 125) := by
  refine ⟨fun T d m h => interpolate_temperature_error_of_bad m h, rfl, fun v rest => rfl, ?_⟩
  rw [show interpolate_climb_gradient
      [⟨0, [("temp_abc_ft_per_nm", 999), ("temp_0c_ft_per_nm", 100),
            ("temp_20c_ft_per_nm", 200)]⟩] 0 5 =
    .ok (100 + (5 - ((0 : ℕ) : ℚ)) / (((20 : ℕ) : ℚ) - ((0 : ℕ) : ℚ)) * (200 - 100))
    from rfl]
  congr 1
  push_cast
  norm_num

/-- Witness for the fail-fast half of the amended C5 statement: a
distance row keyed `temp_isa` (unparsable by `int()`) makes
`_interpolate_temperature` raise. -/
theorem fail_fast_vs_silent_skip_witness :
    ∃ e, interpolate_temperature 0 [("temp_isa", [("ground_roll_ft", 1)])] "ground_roll_ft" =
      .error e :=
  fail_fast_vs_silent_skip.1 0 [("temp_isa", [("ground_roll_ft", 1)])] "ground_roll_ft"
    ⟨("temp_isa", [("ground_roll_ft", 1)]), by decide, by decide, by decide⟩

/-- C8 counterexample: Python 3's `round()` rounds half to even, not
half away from zero.  For a table whose four corner cells are all 25,
the interpolated value is 25, whose quotient by the 50-ft unit is
exactly one half; round-half-away-from-zero would give 50, but
`interpolate_performance` returns 0 for both fields. -/
theorem round_half_away_counterexample :
    interpolate_performance
        [⟨0, [("temp_0c", [("ground_roll_ft", 25), ("total_distance_ft", 25)]),
              ("temp_20c", [("ground_roll_ft", 25), ("total_distance_ft", 25)])]⟩,
         ⟨2000, [("temp_0c", [("ground_roll_ft", 25), ("total_distance_ft", 25)]),
                 ("temp_20c", [("ground_roll_ft", 25), ("total_distance_ft", 25)])]⟩]
        1000 10 = .ok [("ground_roll_ft", 0), ("total_distance_ft", 0)] ∧
    (0 : ℚ) ≠ 50 := by
  constructor
  · rw [show interpolate_performance
        [⟨0, [("temp_0c", [("ground_roll_ft", 25), ("total_distance_ft", 25)]),
              ("temp_20c", [("ground_roll_ft", 25), ("total_distance_ft", 25)])]⟩,
         ⟨2000, [("temp_0c", [("ground_roll_ft", 25), ("total_distance_ft", 25)]),
                 ("temp_20c", [("ground_roll_ft", 25), ("total_distance_ft", 25)])]⟩]
        1000 10 =
      .ok [("ground_roll_ft", distanceRound
              ((25 + (10 - ((0 : ℤ) : ℚ)) / (((20 : ℤ) : ℚ) - ((0 : ℤ) : ℚ)) * (25 - 25)) +
                (1000 - 0) / (2000 - 0) *
                  ((25 + (10 - ((0 : ℤ) : ℚ)) / (((20 : ℤ) : ℚ) - ((0 : ℤ) : ℚ)) * (25 - 25)) -
                    (25 + (10 - ((0 : ℤ) : ℚ)) / (((20 : ℤ) : ℚ) - ((0 : ℤ) : ℚ)) * (25 - 25))))),
           ("total_distance_ft", distanceRound
              ((25 + (10 - ((0 : ℤ) : ℚ)) / (((20 : ℤ) : ℚ) - ((0 : ℤ) : ℚ)) * (25 - 25)) +
                (1000 - 0) / (2000 - 0) *
                  ((25 + (10 - ((0 : ℤ) : ℚ)) / (((20 : ℤ) : ℚ) - ((0 : ℤ) : ℚ)) * (25 - 25)) -
                    (25 + (10 - ((0 : ℤ) : ℚ)) / (((20 : ℤ) : ℚ) - ((0 : ℤ) : ℚ)) * (25 - 25)))))]
      from rfl]
    rw [show ((25 + (10 - ((0 : ℤ) : ℚ)) / (((20 : ℤ) : ℚ) - ((0 : ℤ) : ℚ)) * (25 - 25)) +
        (1000 - 0) / (2000 - 0) *
          ((25 + (10 - ((0 : ℤ) : ℚ)) / (((20 : ℤ) : ℚ) - ((0 : ℤ) : ℚ)) * (25 - 25)) -
            (25 + (10 - ((0 : ℤ) : ℚ)) / (((20 : ℤ) : ℚ) - ((0 : ℤ) : ℚ)) * (25 - 25)))) =
      (25 : ℚ) from by push_cast; norm_num]
    rw [show distanceRound (25 : ℚ) = 0 from by with_unfolding_all decide]
  · norm_num

/-- C8 amended: the final per-field rounding to the nearest 50 ft uses
Python 3's half-to-even (banker's) semantics: whenever the quotient of
the value by 50 has fractional part exactly one half, the result is the
even neighbour — `n * 50` when `n` is even, `(n + 1) * 50` when `n` is
odd — not the neighbour away from zero. -/
theorem distanceRound_half_to_even (v : ℚ) (n : ℤ) (h : v / 50 = (n : ℚ) + 1 / 2) :
    distanceRound v = ((if n % 2 = 0 then n else n + 1 : ℤ) : ℚ) * 50 := by
  unfold distanceRound Config.PERFORMANCE_DISTANCE_ROUND
  rw [h, pyRound_eq]
  have hfl : ⌊(n : ℚ) + 1 / 2⌋ = n := by
    rw [add_comm, Int.floor_add_int]
    norm_num
  rw [hfl]
  have hfr : (n : ℚ) + 1 / 2 - (n : ℚ) = 1 / 2 := by ring
  rw [hfr, if_neg (by norm_num), if_neg (by norm_num)]

/-- Witness for the amended C8 statement at `v = 25`, `n = 0`: the
quotient 25 / 50 is exactly one half and the rounded result is the even
neighbour 0. -/
theorem distanceRound_half_to_even_witness :
    (25 : ℚ) / 50 = ((0 : ℤ) : ℚ) + 1 / 2 ∧
    distanceRound 25 = ((if (0 : ℤ) % 2 = 0 then (0 : ℤ) else 0 + 1 : ℤ) : ℚ) * 50 :=
  ⟨by with_unfolding_all decide,
   distanceRound_half_to_even 25 0 (by with_unfolding_all decide)⟩

/-- C2: on well-formed tables (nonempty, distinct altitudes, rows
parsable with usable temperature points), the distance interpolator and
the climb-gradient interpolator raise an error if and only if the query
pressure altitude lies strictly outside the closed interval
`[min(altitudes), max(altitudes)]` or the query temperature lies
strictly outside the temperatures available at one of the two
bracketing altitude rows; in particular a query exactly at the
minimum/maximum altitude or at a row's extreme temperature succeeds. -/
theorem out_of_range_error_contract
    (condsD : List DistCondition) (condsG : List GradCondition) (pa T : ℚ)
    (hwfD : WFDistB condsD = true) (hwfG : WFGradB condsG = true) :
    ((∃ e, interpolate_performance condsD pa T = .error e) ↔
      (altOutsideB (condsD.map (·.pressure_altitude_ft)) pa = true ∨
        distBracketTempOutside condsD pa T)) ∧
    ((∃ e, interpolate_climb_gradient condsG pa T = .error e) ↔
      (altOutsideB (condsG.map (·.pressure_altitude_ft)) pa = true ∨
        gradBracketTempOutside condsG pa T)) :=
  ⟨interp_perf_error_iff hwfD, interp_grad_error_iff hwfG⟩

/-- Witness for C2 at a concrete pair of two-row tables and the boundary
query `(pa, T) = (0, 20)`: minimum altitude, maximum row temperature. -/
theorem out_of_range_error_contract_witness :
    ((∃ e, interpolate_performance
        [⟨0, [("temp_0c", [("ground_roll_ft", 100), ("total_distance_ft", 200)]),
              ("temp_20c", [("ground_roll_ft", 110), ("total_distance_ft", 210)])]⟩,
         ⟨2000, [("temp_0c", [("ground_roll_ft", 120), ("total_distance_ft", 220)]),
                 ("temp_20c", [("ground_roll_ft", 130), ("total_distance_ft", 230)])]⟩]
        0 20 = .error e) ↔
      (altOutsideB
          (([⟨0, [("temp_0c", [("ground_roll_ft", 100), ("total_distance_ft", 200)]),
                  ("temp_20c", [("ground_roll_ft", 110), ("total_distance_ft", 210)])]⟩,
             ⟨2000, [("temp_0c", [("ground_roll_ft", 120), ("total_distance_ft", 220)]),
                     ("temp_20c", [("ground_roll_ft", 130), ("total_distance_ft", 230)])]⟩] :
              List DistCondition).map (·.pressure_altitude_ft)) 0 = true ∨
        distBracketTempOutside
          [⟨0, [("temp_0c", [("ground_roll_ft", 100), ("total_distance_ft", 200)]),
                ("temp_20c", [("ground_roll_ft", 110), ("total_distance_ft", 210)])]⟩,
           ⟨2000, [("temp_0c", [("ground_roll_ft", 120), ("total_distance_ft", 220)]),
                   ("temp_20c", [("ground_roll_ft", 130), ("total_distance_ft", 230)])]⟩]
          0 20)) ∧
    ((∃ e, interpolate_climb_gradient
        [⟨0, [("temp_0c_ft_per_nm", 300), ("temp_20c_ft_per_nm", 400)]⟩,
         ⟨2000, [("temp_0c_ft_per_nm", 500), ("temp_20c_ft_per_nm", 600)]⟩]
        0 20 = .error e) ↔
      (altOutsideB
          (([⟨0, [("temp_0c_ft_per_nm", 300), ("temp_20c_ft_per_nm", 400)]⟩,
             ⟨2000, [("temp_0c_ft_per_nm", 500), ("temp_20c_ft_per_nm", 600)]⟩] :
              List GradCondition).map (·.pressure_altitude_ft)) 0 = true ∨
        gradBracketTempOutside
          [⟨0, [("temp_0c_ft_per_nm", 300), ("temp_20c_ft_per_nm", 400)]⟩,
           ⟨2000, [("temp_0c_ft_per_nm", 500), ("temp_20c_ft_per_nm", 600)]⟩]
          0 20)) :=
  out_of_range_error_contract
    [⟨0, [("temp_0c", [("ground_roll_ft", 100), ("total_distance_ft", 200)]),
          ("temp_20c", [("ground_roll_ft", 110), ("total_distance_ft", 210)])]⟩,
     ⟨2000, [("temp_0c", [("ground_roll_ft", 120), ("total_distance_ft", 220)]),
             ("temp_20c", [("ground_roll_ft", 130), ("total_distance_ft", 230)])]⟩]
    [⟨0, [("temp_0c_ft_per_nm", 300), ("temp_20c_ft_per_nm", 400)]⟩,
     ⟨2000, [("temp_0c_ft_per_nm", 500), ("temp_20c_ft_per_nm", 600)]⟩]
    0 20 (by decide) (by decide)

/-- Witness for C6 at a concrete two-row table: querying at the first
row's altitude 0 and the parsed temperature 0 of its key `temp_0c`
returns that cell's stored values (100, 200) after rounding. -/
theorem interpolate_performance_boundary_exact_witness :
    interpolate_performance
        [⟨0, [("temp_0c", [("ground_roll_ft", 100), ("total_distance_ft", 200)]),
              ("temp_20c", [("ground_roll_ft", 110), ("total_distance_ft", 210)])]⟩,
         ⟨2000, [("temp_0c", [("ground_roll_ft", 120), ("total_distance_ft", 220)]),
                 ("temp_20c", [("ground_roll_ft", 130), ("total_distance_ft", 230)])]⟩]
        0 (((0 : ℤ) : ℚ)) =
      .ok [("ground_roll_ft", distanceRound 100), ("total_distance_ft", distanceRound 200)] :=
  @interpolate_performance_boundary_exact
    [⟨0, [("temp_0c", [("ground_roll_ft", 100), ("total_distance_ft", 200)]),
          ("temp_20c", [("ground_roll_ft", 110), ("total_distance_ft", 210)])]⟩,
     ⟨2000, [("temp_0c", [("ground_roll_ft", 120), ("total_distance_ft", 220)]),
             ("temp_20c", [("ground_roll_ft", 130), ("total_distance_ft", 230)])]⟩]
    ⟨0, [("temp_0c", [("ground_roll_ft", 100), ("total_distance_ft", 200)]),
         ("temp_20c", [("ground_roll_ft", 110), ("total_distance_ft", 210)])]⟩
    "temp_0c" [("ground_roll_ft", 100), ("total_distance_ft", 200)] 0 100 200
    (by decide) (by decide) (by decide) (by decide) (by decide) (by decide)
    (by decide) (by decide)

/-- C7: for all integer runway heading, wind direction and wind speed,
`calculate_wind_components` normalises the angular difference
`wind_dir - runway_heading` into `[-180, 180]` (first two conjuncts),
returns a non-negative crosswind magnitude (third conjunct), and
returns — never rejects — a record with `headwind = speed * cos angle`,
`crosswind = |speed * sin angle|`, left/right from the sign of the raw
sine term, `is_tailwind` true iff the headwind term is negative, and
the 21-kt exceedance flag (fourth conjunct). -/
theorem calculate_wind_components_spec (rh wd ws : ℤ) :
    -180 ≤ normAngle (wd - rh) ∧ normAngle (wd - rh) ≤ 180 ∧
    0 ≤ pyRoundR |(ws : ℝ) * Real.sin ((normAngle (wd - rh) : ℝ) * Real.pi / 180)| ∧
    calculate_wind_components (.int rh) (.int wd) (.int ws) =
      .ok { headwind := pyRoundR ((ws : ℝ) * Real.cos ((normAngle (wd - rh) : ℝ) * Real.pi / 180)),
            crosswind := pyRoundR |(ws : ℝ) * Real.sin ((normAngle (wd - rh) : ℝ) * Real.pi / 180)|,
            crosswind_direction :=
              if 0 < (ws : ℝ) * Real.sin ((normAngle (wd - rh) : ℝ) * Real.pi / 180)
              then "right" else "left",
            is_tailwind :=
              decide ((ws : ℝ) * Real.cos ((normAngle (wd - rh) : ℝ) * Real.pi / 180) < 0),
            crosswind_exceeds_limits :=
              decide ((21 : ℝ) <
                |(ws : ℝ) * Real.sin ((normAngle (wd - rh) : ℝ) * Real.pi / 180)|) } :=
  ⟨(normAngle_range _).1, (normAngle_range _).2, pyRoundR_nonneg (abs_nonneg _), rfl⟩

/-- C10: `calculate_climb_gradients` never propagates an interpolation
failure: each gradient field is exactly the `Option` image of the
interpolation result (so an interpolation error yields `none` for that
field, conjuncts three and four), while the TAS and ground-speed fields
are always computed from density altitude and headwind alone. -/
theorem calculate_climb_gradients_never_propagates
    (g91 g120 : List GradCondition) (pa T da hw : ℚ) :
    (calculate_climb_gradients g91 g120 pa T da hw).gradient_91 =
      (interpolate_climb_gradient g91 pa T).toOption ∧
    (calculate_climb_gradients g91 g120 pa T da hw).gradient_120 =
      (interpolate_climb_gradient g120 pa T).toOption ∧
    (∀ e, interpolate_climb_gradient g91 pa T = .error e →
      (calculate_climb_gradients g91 g120 pa T da hw).gradient_91 = none) ∧
    (∀ e, interpolate_climb_gradient g120 pa T = .error e →
      (calculate_climb_gradients g91 g120 pa T da hw).gradient_120 = none) ∧
    (calculate_climb_gradients g91 g120 pa T da hw).tas_91 =
      pyRound1 (91 * (1 + 2 / 100 * (da / 1000))) ∧
    (calculate_climb_gradients g91 g120 pa T da hw).gs_91 =
      pyRound1 (91 * (1 + 2 / 100 * (da / 1000)) - hw) ∧
    (calculate_climb_gradients g91 g120 pa T da hw).tas_120 =
      pyRound1 (120 * (1 + 2 / 100 * (da / 1000))) ∧
    (calculate_climb_gradients g91 g120 pa T da hw).gs_120 =
      pyRound1 (120 * (1 + 2 / 100 * (da / 1000)) - hw) := by
  refine ⟨rfl, rfl, ?_, ?_, rfl, rfl, rfl, rfl⟩
  · intro e he
    show (interpolate_climb_gradient g91 pa T).toOption = none
    rw [he]
    rfl
  · intro e he
    show (interpolate_climb_gradient g120 pa T).toOption = none
    rw [he]
    rfl

/-- Witness for C10: with empty gradient tables the interpolation
raises, and the returned record holds `none` for the gradient field. -/
theorem calculate_climb_gradients_never_propagates_witness :
    (calculate_climb_gradients [] [] 0 0 0 0).gradient_91 = none :=
  (calculate_climb_gradients_never_propagates [] [] 0 0 0 0).2.2.1
    (.valueError "min() arg is an empty sequence") rfl

/-- `pyRoundR` at zero. -/
theorem pyRoundR_zero : pyRoundR 0 = 0 := by
  have h := pyRoundR_intCast 0
  simpa using h

/-- C9 counterexample: the `VRB` check of the source is
case-insensitive (`str(wind_dir).upper() == 'VRB'`).  The lowercase
string `"vrb"` is not the string `"VRB"` and cannot be converted by
`int()`, so the claim requires the zero-wind dict; instead the source
takes the variable-wind branch and returns a pure headwind equal to the
wind speed. -/
theorem vrb_case_insensitive_counterexample :
    calculate_wind_components (.int 90) (.str "vrb") (.int 10) =
      .ok { headwind := 10, crosswind := 0, crosswind_direction := "left",
            is_tailwind := false, crosswind_exceeds_limits := false } ∧
    ({ headwind := 10, crosswind := 0, crosswind_direction := "left",
       is_tailwind := false, crosswind_exceeds_limits := false } : WindComponents) ≠
      zeroWind := by
  constructor
  · have h : calculate_wind_components (.int 90) (.str "vrb") (.int 10) =
        .ok { headwind :=
                pyRoundR (((10 : ℤ) : ℝ) *
                  Real.cos ((normAngle ((90 : ℤ) - 90) : ℝ) * Real.pi / 180)),
              crosswind :=
                pyRoundR |((10 : ℤ) : ℝ) *
                  Real.sin ((normAngle ((90 : ℤ) - 90) : ℝ) * Real.pi / 180)|,
              crosswind_direction :=
                if 0 < ((10 : ℤ) : ℝ) *
                    Real.sin ((normAngle ((90 : ℤ) - 90) : ℝ) * Real.pi / 180)
                then "right" else "left",
              is_tailwind :=
                decide (((10 : ℤ) : ℝ) *
                  Real.cos ((normAngle ((90 : ℤ) - 90) : ℝ) * Real.pi / 180) < 0),
              crosswind_exceeds_limits :=
                decide ((21 : ℝ) < |((10 : ℤ) : ℝ) *
                  Real.sin ((normAngle ((90 : ℤ) - 90) : ℝ) * Real.pi / 180)|) } := rfl
    have h10 : pyRoundR (10 : ℝ) = 10 := by
      have h' := pyRoundR_intCast 10
      simpa using h'
    rw [h, show (90 : ℤ) - 90 = 0 from by norm_num, normAngle_zero]
    norm_num [Real.cos_zero, Real.sin_zero, h10, pyRoundR_zero,
      decide_eq_false_iff_not]
  · decide

/-- The zero-wind fallback of `calculate_wind_components`: if the wind
direction is not a `VRB` string and any of the three `int()`
conversions fails, the `except` branch returns the zero-wind dict. -/
theorem cwc_zero_of_fail (rh wd ws : PyVal)
    (hnv : ∀ s, wd = .str s → pyUpper s ≠ "VRB")
    (hfail : (∃ e, pyToInt wd = .error e) ∨ (∃ e, pyToInt ws = .error e) ∨
      (∃ e, pyToInt rh = .error e)) :
    calculate_wind_components rh wd ws = .ok zeroWind := by
  cases wd with
  | noneV => rfl
  | int n =>
    rcases hfail with ⟨e, he⟩ | ⟨e, he⟩ | ⟨e, he⟩
    · simp [pyToInt] at he
    · cases hw : pyToInt ws with
      | error e2 =>
        unfold calculate_wind_components
        simp only [hw]
        rfl
      | ok m => rw [hw] at he; cases he
    · cases hw : pyToInt ws with
      | error e2 =>
        unfold calculate_wind_components
        simp only [hw]
        rfl
      | ok m =>
        unfold calculate_wind_components
        simp only [hw, he]
        rfl
  | str s =>
    have hv : ¬(pyUpper s = "VRB") := hnv s rfl
    cases hd : pyToInt (PyVal.str s) with
    | error e1 =>
      unfold calculate_wind_components
      simp only [if_neg hv, hd]
      rfl
    | ok k =>
      rcases hfail with ⟨e, he⟩ | ⟨e, he⟩ | ⟨e, he⟩
      · rw [hd] at he; cases he
      · cases hw : pyToInt ws with
        | error e2 =>
          unfold calculate_wind_components
          simp only [if_neg hv, hd, hw]
          rfl
        | ok m => rw [hw] at he; cases he
      · cases hw : pyToInt ws with
        | error e2 =>
          unfold calculate_wind_components
          simp only [if_neg hv, hd, hw]
          rfl
        | ok m =>
          unfold calculate_wind_components
          simp only [if_neg hv, hd, hw, he]
          rfl

/-- C9 amended: the zero-wind fallback holds only when the wind
direction does not spell `VRB` in any letter case (first conjunct,
`pyUpper` being the source's `.upper()`); any string whose uppercasing
is `"VRB"` — not only the literal `"VRB"` — takes the variable-wind
branch, which substitutes the runway heading for the wind direction and
yields a pure headwind equal to the wind speed with zero crosswind
(second and third conjuncts). -/
theorem vrb_and_conversion_fallback :
    (∀ rh wd ws : PyVal, (∀ s, wd = .str s → pyUpper s ≠ "VRB") →
      ((∃ e, pyToInt wd = .error e) ∨ (∃ e, pyToInt ws = .error e) ∨
        (∃ e, pyToInt rh = .error e)) →
      calculate_wind_components rh wd ws = .ok zeroWind) ∧
    (∀ (rh ws : ℤ) (s : String), pyUpper s = "VRB" →
      (calculate_wind_components (.int rh) (.str s) (.int ws)).map (·.headwind) = .ok ws ∧
      (calculate_wind_components (.int rh) (.str s) (.int ws)).map (·.crosswind) = .ok 0) := by
  refine ⟨cwc_zero_of_fail, ?_⟩
  intro rh ws s hs
  have hrec : calculate_wind_components (.int rh) (.str s) (.int ws) =
      .ok { headwind := ws, crosswind := 0, crosswind_direction := "left",
            is_tailwind := decide (((ws : ℤ) : ℝ) < 0),
            crosswind_exceeds_limits := false } := by
    have h0 : calculate_wind_components (.int rh) (.str s) (.int ws) =
        .ok { headwind :=
                pyRoundR (((ws : ℤ) : ℝ) *
                  Real.cos ((normAngle (rh - rh) : ℝ) * Real.pi / 180)),
              crosswind :=
                pyRoundR |((ws : ℤ) : ℝ) *
                  Real.sin ((normAngle (rh - rh) : ℝ) * Real.pi / 180)|,
              crosswind_direction :=
                if 0 < ((ws : ℤ) : ℝ) *
                    Real.sin ((normAngle (rh - rh) : ℝ) * Real.pi / 180)
                then "right" else "left",
              is_tailwind :=
                decide (((ws : ℤ) : ℝ) *
                  Real.cos ((normAngle (rh - rh) : ℝ) * Real.pi / 180) < 0),
              crosswind_exceeds_limits :=
                decide ((21 : ℝ) < |((ws : ℤ) : ℝ) *
                  Real.sin ((normAngle (rh - rh) : ℝ) * Real.pi / 180)|) } := by
      unfold calculate_wind_components
      simp only [hs, if_pos]
      rfl
    rw [h0, sub_self, normAngle_zero]
    norm_num [Real.cos_zero, Real.sin_zero, pyRoundR_intCast, pyRoundR_zero,
      decide_eq_false_iff_not]
  rw [hrec]
  exact ⟨rfl, rfl⟩

/-- Witness for the amended C9 statement: an unconvertible wind
direction yields the zero-wind dict, and an uppercase-`VRB` wind
direction yields a pure headwind equal to the wind speed. -/
theorem vrb_and_conversion_fallback_witness :
    calculate_wind_components (.int 90) (.str "calm") (.int 10) = .ok zeroWind ∧
    (calculate_wind_components (.int 0) (.str "VRB") (.int 7)).map (·.headwind) = .ok 7 ∧
    (calculate_wind_components (.int 0) (.str "VRB") (.int 7)).map (·.crosswind) = .ok 0 :=
  ⟨vrb_and_conversion_fallback.1 (.int 90) (.str "calm") (.int 10)
      (fun s hs => by cases hs; decide)
      (Or.inl ⟨.valueError "invalid literal for int() with base 10", rfl⟩),
   (vrb_and_conversion_fallback.2 0 7 "VRB" (by decide)).1,
   (vrb_and_conversion_fallback.2 0 7 "VRB" (by decide)).2⟩

/-- C4 counterexample: a climb-gradient interpolation returning `5 / 2`,
which is not a multiple of 10 and differs from its nearest-10 rounding —
so gradient results are not rounded to the nearest 10 ft/NM, refuting
the claim that every gradient value is so rounded. -/
theorem gradient_unrounded_counterexample :
    interpolate_climb_gradient
        [⟨0, [("temp_0c_ft_per_nm", 0), ("temp_20c_ft_per_nm", 5)]⟩] 0 10 = .ok (5 / 2) ∧
    (5 / 2 : ℚ) ≠ (pyRound ((5 / 2) / 10) : ℚ) * 10 := by
  constructor
  · rw [show interpolate_climb_gradient
        [⟨0, [("temp_0c_ft_per_nm", 0), ("temp_20c_ft_per_nm", 5)]⟩] 0 10 =
      .ok (0 + (10 - ((0 : ℕ) : ℚ)) / (((20 : ℕ) : ℚ) - ((0 : ℕ) : ℚ)) * (5 - 0))
      from rfl]
    congr 1
    push_cast
    norm_num
  · with_unfolding_all decide
